import Mathlib

/-!
Shallow embedding of the BillG-BD retail billing backend.

JavaScript strings are modelled as lists of characters (`Str`), JS number
amounts as exact rationals (`Rat`), integer counters as `Nat`/`Int`, and
timestamps as `Int` instants ordered by `<`.  The Prisma client is modelled
as explicit record states (`Db` for the sales side, `SubDb` for the
subscription side); `prisma.$transaction` is modelled by its ACID contract:
the callback either produces the committed state or the pre-call state is
kept unchanged.
-/

namespace BillG

/-- JS strings as lists of characters. -/
abbrev Str := List Char

/-- JS `<` on strings: lexicographic comparison by character code. -/
def strLt : Str → Str → Bool
  | [], [] => false
  | [], _ :: _ => true
  | _ :: _, [] => false
  | a :: as, b :: bs => if a < b then true else if b < a then false else strLt as bs

/-- JS `String.prototype.startsWith`: does `s` start with `pat`? -/
def strStartsWith : Str → Str → Bool
  | _, [] => true
  | [], _ :: _ => false
  | c :: cs, p :: ps => c == p && strStartsWith cs ps

/-- Model of Prisma `findFirst` with `orderBy: billNumber desc`:
the lexicographically greatest string of the list, if any. -/
def listMaxStr (l : List Str) : Option Str :=
  l.foldl
    (fun acc s =>
      match acc with
      | none => some s
      | some m => if strLt m s then some s else some m)
    none

/-- The decimal digit character for `d < 10`. -/
def digitChar (d : Nat) : Char := Char.ofNat (48 + d)

/-- Fuel-driven decimal rendering (structural recursion so that the kernel
can evaluate it inside `decide`). -/
def natToDigitsAux : Nat → Nat → List Char → List Char
  | 0, _, acc => acc
  | fuel + 1, n, acc =>
      if n < 10 then digitChar (n % 10) :: acc
      else natToDigitsAux fuel (n / 10) (digitChar (n % 10) :: acc)

/-- JS `String(n)` for a natural number: its decimal digits. -/
def natToDigits (n : Nat) : Str := natToDigitsAux (n + 1) n []

/-- JS `String.prototype.padStart(w, '0')`. -/
def padLeft (w : Nat) (s : Str) : Str := List.replicate (w - s.length) '0' ++ s

/-- A number rendered and padded to (at least) two digits. -/
def pad2 (n : Nat) : Str := padLeft 2 (natToDigits n)

/-- A number rendered and padded to (at least) four digits. -/
def pad4 (n : Nat) : Str := padLeft 4 (natToDigits n)

/-- The numeric value of a decimal digit character, if it is one. -/
def charToDigit (c : Char) : Option Nat :=
  if '0' ≤ c ∧ c ≤ '9' then some (c.toNat - 48) else none

/-- One step of decimal parsing: shift the accumulator and add a digit. -/
def parseStep (acc : Option Nat) (ch : Char) : Option Nat :=
  match acc, charToDigit ch with
  | some v, some d => some (v * 10 + d)
  | _, _ => none

/-- JS `parseInt` restricted to all-digit strings (the only shape the code
ever feeds it; the `NaN` path of `parseInt` is not representable in `Nat`
and never arises in the states the theorems quantify over). -/
def parseDigits : Str → Option Nat
  | [] => none
  | c :: cs => (c :: cs).foldl parseStep (some 0)

/-- JS `s.slice(-4)`: the last four characters. -/
def lastFour (s : Str) : Str := s.drop (s.length - 4)

example : natToDigits 0 = ['0'] := by decide
example : pad4 7 = ['0', '0', '0', '7'] := by decide
example : pad4 10000 = ['1', '0', '0', '0', '0'] := by decide
example : parseDigits (pad4 12) = some 12 := by decide
example : strLt (pad4 9) (pad4 10) = true := by decide
example : lastFour ("BILL202601070001".toList) = ['0', '0', '0', '1'] := by decide

/-! ### Digit-level facts about the rendering helpers -/

theorem natToDigits_lt10 (n : Nat) (h : n < 10) : natToDigits n = [digitChar n] := by
  simp [natToDigits, natToDigitsAux, h, Nat.mod_eq_of_lt h]

theorem natToDigits_lt100 (n : Nat) (h1 : 10 ≤ n) (h2 : n < 100) :
    natToDigits n = [digitChar (n / 10), digitChar (n % 10)] := by
  obtain ⟨m, rfl⟩ : ∃ m, n = m + 1 := ⟨n - 1, by omega⟩
  have hd : (m + 1) / 10 < 10 := by omega
  simp only [natToDigits, natToDigitsAux, if_neg (by omega : ¬ m + 1 < 10), if_pos hd]
  rw [Nat.mod_eq_of_lt hd]

theorem natToDigits_lt1000 (n : Nat) (h1 : 100 ≤ n) (h2 : n < 1000) :
    natToDigits n = [digitChar (n / 100), digitChar (n / 10 % 10), digitChar (n % 10)] := by
  obtain ⟨m, rfl⟩ : ∃ m, n = m + 1 := ⟨n - 1, by omega⟩
  obtain ⟨k, hk⟩ : ∃ k, m = k + 1 := ⟨m - 1, by omega⟩
  have hdiv : (m + 1) / 10 / 10 = (m + 1) / 100 := by
    rw [Nat.div_div_eq_div_mul]
  have hd : (m + 1) / 100 < 10 := by omega
  simp only [natToDigits, natToDigitsAux, if_neg (by omega : ¬ m + 1 < 10)]
  rw [hk]
  simp only [natToDigitsAux, if_neg (by omega : ¬ (k + 1 + 1) / 10 < 10)]
  rw [← hk, hdiv]
  simp only [natToDigitsAux, if_pos hd]
  rw [Nat.mod_eq_of_lt hd]

theorem natToDigits_lt10000 (n : Nat) (h1 : 1000 ≤ n) (h2 : n < 10000) :
    natToDigits n =
      [digitChar (n / 1000), digitChar (n / 100 % 10),
       digitChar (n / 10 % 10), digitChar (n % 10)] := by
  obtain ⟨m, rfl⟩ : ∃ m, n = m + 1 := ⟨n - 1, by omega⟩
  obtain ⟨k, hk⟩ : ∃ k, m = k + 1 := ⟨m - 1, by omega⟩
  obtain ⟨j, hj⟩ : ∃ j, k = j + 1 := ⟨k - 1, by omega⟩
  have hdiv1 : (m + 1) / 10 / 10 = (m + 1) / 100 := by rw [Nat.div_div_eq_div_mul]
  have hdiv2 : (m + 1) / 100 / 10 = (m + 1) / 1000 := by rw [Nat.div_div_eq_div_mul]
  have hd : (m + 1) / 1000 < 10 := by omega
  simp only [natToDigits, natToDigitsAux, if_neg (by omega : ¬ m + 1 < 10)]
  rw [hk]
  simp only [natToDigitsAux, if_neg (by omega : ¬ (k + 1 + 1) / 10 < 10)]
  rw [hj]
  rw [show (j + 1 + 1 + 1) / 10 / 10 = (m + 1) / 100 by rw [← hj, ← hk, hdiv1]]
  simp only [natToDigitsAux, if_neg (by omega : ¬ (m + 1) / 100 < 10)]
  rw [hdiv2]
  rw [show j + 1 = (j + 1 + 1 + 1) - 2 by omega, ← hj, ← hk]
  obtain ⟨i, hi⟩ : ∃ i, m + 1 - 2 = i + 1 := ⟨m - 2, by omega⟩
  rw [hi]
  simp only [natToDigitsAux, if_pos hd]
  rw [Nat.mod_eq_of_lt hd]
  have him : i + 1 + 1 + 1 = m + 1 := by omega
  rw [him]

theorem pad4_eq (n : Nat) (h : n < 10000) :
    pad4 n =
      [digitChar (n / 1000), digitChar (n / 100 % 10),
       digitChar (n / 10 % 10), digitChar (n % 10)] := by
  have h0 : digitChar 0 = '0' := by decide
  rcases Nat.lt_or_ge n 10 with h1 | h1
  · rw [pad4, natToDigits_lt10 n h1]
    have e3 : n / 1000 = 0 := by omega
    have e2 : n / 100 % 10 = 0 := by omega
    have e1 : n / 10 % 10 = 0 := by omega
    have e0 : n % 10 = n := by omega
    simp [padLeft, e3, e2, e1, e0, h0, List.replicate]
  · rcases Nat.lt_or_ge n 100 with h2 | h2
    · rw [pad4, natToDigits_lt100 n h1 h2]
      have e3 : n / 1000 = 0 := by omega
      have e2 : n / 100 % 10 = 0 := by omega
      have e1 : n / 10 % 10 = n / 10 := by omega
      simp [padLeft, e3, e2, e1, h0, List.replicate]
    · rcases Nat.lt_or_ge n 1000 with h3 | h3
      · rw [pad4, natToDigits_lt1000 n h2 h3]
        have e3 : n / 1000 = 0 := by omega
        have e2 : n / 100 % 10 = n / 100 := by omega
        simp [padLeft, e3, e2, h0, List.replicate]
      · rw [pad4, natToDigits_lt10000 n h3 h]
        simp [padLeft, List.replicate]

theorem pad4_length (n : Nat) (h : n < 10000) : (pad4 n).length = 4 := by
  rw [pad4_eq n h]; rfl

theorem digitChar_lt :
    ∀ a, a < 10 → ∀ b, b < 10 → ((digitChar a < digitChar b) ↔ a < b) := by decide

theorem digitChar_inj :
    ∀ a, a < 10 → ∀ b, b < 10 → (digitChar a = digitChar b ↔ a = b) := by decide

theorem charToDigit_digitChar : ∀ d, d < 10 → charToDigit (digitChar d) = some d := by decide

theorem strLt_digit_cons (a b : Nat) (ha : a < 10) (hb : b < 10) (as bs : Str) :
    strLt (digitChar a :: as) (digitChar b :: bs) = true ↔
      a < b ∨ (a = b ∧ strLt as bs = true) := by
  simp only [strLt]
  split_ifs with h1 h2
  · simp only [true_iff]
    exact Or.inl ((digitChar_lt a ha b hb).mp h1)
  · simp only [false_iff]
    have hba : b < a := (digitChar_lt b hb a ha).mp h2
    rintro (hc | ⟨hc, -⟩) <;> omega
  · have hab : a = b := by
      have h1' : ¬ a < b := fun hc => h1 ((digitChar_lt a ha b hb).mpr hc)
      have h2' : ¬ b < a := fun hc => h2 ((digitChar_lt b hb a ha).mpr hc)
      omega
    simp [hab]

theorem strLt_pad4 (n m : Nat) (hn : n < 10000) (hm : m < 10000) :
    strLt (pad4 n) (pad4 m) = true ↔ n < m := by
  rw [pad4_eq n hn, pad4_eq m hm]
  rw [strLt_digit_cons _ _ (by omega) (by omega)]
  rw [strLt_digit_cons _ _ (by omega) (by omega)]
  rw [strLt_digit_cons _ _ (by omega) (by omega)]
  rw [strLt_digit_cons _ _ (by omega) (by omega)]
  have hnil : (strLt ([] : Str) [] = true) ↔ False := by simp [strLt]
  rw [hnil]
  simp only [and_false, or_false]
  omega

theorem strStartsWith_append (p s : Str) : strStartsWith (p ++ s) p = true := by
  induction p with
  | nil => cases s <;> rfl
  | cons c cs ih => simp [strStartsWith, ih]

theorem strLt_append_left (p a b : Str) : strLt (p ++ a) (p ++ b) = strLt a b := by
  induction p with
  | nil => rfl
  | cons c cs ih => simp [strLt, ih]

theorem lastFour_append (p s : Str) (h : s.length = 4) : lastFour (p ++ s) = s := by
  unfold lastFour
  rw [List.length_append, h, show p.length + 4 - 4 = p.length by omega, List.drop_left]

theorem listMaxStr_nil : listMaxStr [] = none := rfl

theorem listMaxStr_singleton (x : Str) : listMaxStr [x] = some x := rfl

theorem listMaxStr_concat (l : List Str) (x : Str) :
    listMaxStr (l ++ [x]) =
      match listMaxStr l with
      | none => some x
      | some m => if strLt m x then some x else some m := by
  simp [listMaxStr, List.foldl_append]

theorem parseStep_digitChar (v d : Nat) (h : d < 10) :
    parseStep (some v) (digitChar d) = some (v * 10 + d) := by
  simp [parseStep, charToDigit_digitChar d h]

theorem parseDigits_pad4 (n : Nat) (h : n < 10000) : parseDigits (pad4 n) = some n := by
  rw [pad4_eq n h]
  simp only [parseDigits, List.foldl,
    parseStep_digitChar _ _ (by omega : n / 1000 < 10),
    parseStep_digitChar _ _ (by omega : n / 100 % 10 < 10),
    parseStep_digitChar _ _ (by omega : n / 10 % 10 < 10),
    parseStep_digitChar _ _ (by omega : n % 10 < 10)]
  congr 1
  omega

/-! ### Bill-number generation (routes/bills.js generateBillNumber,
models/Bill.js BillModel.generateBillNumber — identical algorithm) -/

/-- A calendar date as the JS code reads it from `new Date()`:
`year = getFullYear()`, `month = getMonth() + 1`, `day = getDate()`. -/
structure Date where
  year : Nat
  month : Nat
  day : Nat
deriving DecidableEq

/-- The date tag `BILL${year}${month}${day}` (month and day zero-padded
to two digits), called `datePre` + `fix` in the source. -/
def dayCode (d : Date) : Str :=
  "BILL".toList ++ natToDigits d.year ++ pad2 d.month ++ pad2 d.day

/-- `generateBillNumber`: find the lexicographically last existing bill
number with today's date tag, parse its final four characters, add one,
and render the result zero-padded to four digits after the tag. -/
def generateBillNumber (d : Date) (nums : List Str) : Str :=
  let tag := dayCode d
  let lastBill := listMaxStr (nums.filter (fun b => strStartsWith b tag))
  let sequence :=
    match lastBill with
    | none => 1
    | some lb => (parseDigits (lastFour lb)).getD 0 + 1
  tag ++ padLeft 4 (natToDigits sequence)

/-- One serialized bill creation, as far as bill numbers are concerned:
the freshly generated number is appended to the table. -/
def allocate (d : Date) (nums : List Str) : List Str :=
  nums ++ [generateBillNumber d nums]

/-- `n` serialized bill creations on one day, starting from a day with no
bills yet. -/
def serializedRun (d : Date) : Nat → List Str
  | 0 => []
  | n + 1 => allocate d (serializedRun d n)

theorem generateBillNumber_pad4 (d : Date) (nums : List Str) :
    ∃ k, generateBillNumber d nums = dayCode d ++ pad4 k := by
  unfold generateBillNumber
  exact ⟨_, rfl⟩

/-- Characterization of a serialized day of bill creations: together with
its running lexicographic maximum, the table after `n` creations is
exactly the tag followed by the zero-padded sequences `1, …, n`. -/
theorem serializedRun_spec (d : Date) :
    ∀ n, n ≤ 9999 →
      serializedRun d n = (List.range n).map (fun j => dayCode d ++ pad4 (j + 1)) ∧
      listMaxStr (serializedRun d n) =
        (if n = 0 then none else some (dayCode d ++ pad4 n)) := by
  intro n
  induction n with
  | zero => intro _; exact ⟨rfl, rfl⟩
  | succ n ih =>
    intro hn
    obtain ⟨heq, hmax⟩ := ih (by omega)
    have hfilter :
        (serializedRun d n).filter (fun b => strStartsWith b (dayCode d)) =
          serializedRun d n := by
      rw [List.filter_eq_self]
      intro s hs
      rw [heq] at hs
      obtain ⟨j, _, rfl⟩ := List.mem_map.mp hs
      exact strStartsWith_append (dayCode d) (pad4 (j + 1))
    have hgen : generateBillNumber d (serializedRun d n) = dayCode d ++ pad4 (n + 1) := by
      rcases Nat.eq_zero_or_pos n with h0 | hpos
      · subst h0; rfl
      · unfold generateBillNumber
        simp only [hfilter, hmax, if_neg (by omega : ¬ n = 0)]
        rw [lastFour_append _ _ (pad4_length n (by omega))]
        rw [parseDigits_pad4 n (by omega)]
        rfl
    constructor
    · show serializedRun d n ++ [generateBillNumber d (serializedRun d n)] = _
      rw [hgen, heq, List.range_succ, List.map_append]
      rfl
    · show listMaxStr (serializedRun d n ++ [generateBillNumber d (serializedRun d n)]) = _
      rw [hgen, listMaxStr_concat, hmax]
      rcases Nat.eq_zero_or_pos n with h0 | hpos
      · subst h0; rfl
      · rw [if_neg (by omega)]
        have hlt : strLt (dayCode d ++ pad4 n) (dayCode d ++ pad4 (n + 1)) = true := by
          rw [strLt_append_left]
          exact (strLt_pad4 n (n + 1) (by omega) (by omega)).mpr (by omega)
        simp [hlt]

/-- Claim C3: under serialized creation starting from a day with no bills,
the table after `n` creations (any `n` within the four-digit capacity) is
exactly the date tag followed by the zero-padded sequences `1, …, n`: each
number is the date tag plus a 4-digit zero-padded suffix, the first bill
of the day gets the initial sequence 1, each later number is one greater
than its predecessor (so no gaps), and the numbers are strictly
increasing in allocation order. -/
theorem C3_bill_number_allocation (d : Date) (n : Nat) (hn : n ≤ 9999) :
    serializedRun d n = (List.range n).map (fun j => dayCode d ++ pad4 (j + 1)) ∧
    (∀ s ∈ serializedRun d n, s.length = (dayCode d).length + 4) ∧
    (∀ j dflt, j + 1 < n →
      strLt ((serializedRun d n).getD j dflt) ((serializedRun d n).getD (j + 1) dflt) = true) := by
  obtain ⟨heq, -⟩ := serializedRun_spec d n hn
  have hget : ∀ (j : Nat) (dflt : Str), j < n →
      ((List.range n).map (fun i => dayCode d ++ pad4 (i + 1))).getD j dflt =
        dayCode d ++ pad4 (j + 1) := by
    intro j dflt hj
    rw [List.getD_eq_getElem?_getD, List.getElem?_map, List.getElem?_range hj]
    rfl
  refine ⟨heq, ?_, ?_⟩
  · intro s hs
    rw [heq] at hs
    obtain ⟨j, hj, rfl⟩ := List.mem_map.mp hs
    rw [List.mem_range] at hj
    rw [List.length_append, pad4_length (j + 1) (by omega)]
  · intro j dflt hj
    rw [heq, hget j dflt (by omega), hget (j + 1) dflt (by omega)]
    rw [strLt_append_left]
    exact (strLt_pad4 (j + 1) (j + 2) (by omega) (by omega)).mpr (by omega)

/-! ### Sales data model (prisma/schema: products, customers, bills, bill_items) -/

inductive PaymentStatus
  | PENDING
  | PAID
  | PARTIAL
  | OVERDUE
deriving DecidableEq

inductive PaymentMethod
  | CASH
  | CARD
  | UPI
  | BANK_TRANSFER
  | OTHER
deriving DecidableEq

structure Product where
  id : String
  title : String
  price : Rat
  stock : Int
  availabilityStatus : String
deriving DecidableEq

structure Customer where
  id : Nat
  name : String
  mobileNumber : String
  email : Option String
  address : Option String
deriving DecidableEq

structure BillItem where
  productId : String
  quantity : Nat
  unitPrice : Rat
  totalPrice : Rat
deriving DecidableEq

structure Bill where
  id : String
  billNumber : Str
  customerId : Nat
  userId : Option Nat
  totalAmount : Rat
  discountPercent : Rat
  discountAmount : Rat
  finalAmount : Rat
  paymentMethod : PaymentMethod
  paymentStatus : PaymentStatus
  transactionId : Option String
  paidAt : Option Int
  items : List BillItem
deriving DecidableEq

/-- The relational store seen by the sales routes.  `nextCustomerId` models
Prisma's fresh-id generation for created customers. -/
structure Db where
  products : List Product
  customers : List Customer
  bills : List Bill
  nextCustomerId : Nat
deriving DecidableEq

/-- One line of a bill-creation request body (validated shape:
`productId` present, `quantity` an integer of at least 1). -/
structure ReqItem where
  productId : String
  quantity : Nat
deriving DecidableEq

/-- A validated POST /api/bills body.  Optional fields model the JS
destructuring defaults `discountPercent = 0`, `paymentMethod = 'CASH'`,
`paymentStatus = 'PENDING'`. -/
structure BillRequest where
  id : String
  customerName : String
  mobileNumber : String
  email : Option String
  address : Option String
  items : List ReqItem
  discountPercent : Option Rat
  paymentMethod : Option PaymentMethod
  paymentStatus : Option PaymentStatus
deriving DecidableEq

/-- `tx.product.findUnique({ where: { id } })`. -/
def findProduct (ps : List Product) (pid : String) : Option Product :=
  ps.find? (fun p => p.id == pid)

/-- Accumulator of the per-item loop in the bill transaction: the product
table as mutated so far, the running `totalAmount`, and the `billItems`
snapshots collected so far. -/
structure ItemAcc where
  products : List Product
  total : Rat
  billItems : List BillItem
deriving DecidableEq

/-- One iteration of the `for (const item of items)` loop of the bill
transaction: look the product up, throw on a missing product or
insufficient stock, otherwise accumulate the line total and decrement the
stock (recomputing the availability flag from the looked-up stock). -/
def processItem (acc : ItemAcc) (it : ReqItem) : Except String ItemAcc :=
  match findProduct acc.products it.productId with
  | none => Except.error ("Product with ID " ++ it.productId ++ " not found")
  | some product =>
    if product.stock < (it.quantity : Int) then
      Except.error ("Insufficient stock for product " ++ product.title)
    else
      let itemTotal := product.price * (it.quantity : Rat)
      Except.ok
        { products := acc.products.map (fun q =>
            if q.id == it.productId then
              { q with
                  stock := product.stock - (it.quantity : Int),
                  availabilityStatus :=
                    if product.stock - (it.quantity : Int) > 0 then "In Stock"
                    else "Out of Stock" }
            else q),
          total := acc.total + itemTotal,
          billItems := acc.billItems ++
            [{ productId := it.productId, quantity := it.quantity,
               unitPrice := product.price, totalPrice := itemTotal }] }

/-- The whole per-item loop. -/
def processItems (ps : List Product) (items : List ReqItem) : Except String ItemAcc :=
  items.foldlM processItem { products := ps, total := 0, billItems := [] }

/-- `tx.customer.findFirst` by name and mobile number, creating the
customer when absent. -/
def findOrCreateCustomer (db : Db) (nm mob : String) (email addr : Option String) :
    Customer × Db :=
  match db.customers.find? (fun c => c.name == nm && c.mobileNumber == mob) with
  | some c => (c, db)
  | none =>
    let c : Customer :=
      { id := db.nextCustomerId, name := nm, mobileNumber := mob,
        email := email, address := addr }
    (c, { db with customers := db.customers ++ [c],
                  nextCustomerId := db.nextCustomerId + 1 })

/-- The body of the `prisma.$transaction` callback of POST /api/bills
(also `BillController.createBill`): find or create the customer, run the
per-item loop, compute the discount and final amounts, allocate a bill
number, and persist the bill with its items.  `persisted` is the
`paymentStatus` value the route writes (the unguarded route writes the
literal PAID, the guarded route writes the request value); `userId` is
set only by the guarded route. -/
def createBillCore (d : Date) (persisted : PaymentStatus) (userId : Option Nat)
    (db : Db) (req : BillRequest) : Except String (Db × Bill) :=
  let fc := findOrCreateCustomer db req.customerName req.mobileNumber req.email req.address
  let customer := fc.1
  let db1 := fc.2
  match processItems db1.products req.items with
  | Except.error e => Except.error e
  | Except.ok acc =>
    let discountPercent := req.discountPercent.getD 0
    let totalAmount := acc.total
    let discountAmount := totalAmount * discountPercent / 100
    let finalAmount := totalAmount - discountAmount
    let billNumber := generateBillNumber d (db1.bills.map Bill.billNumber)
    let bill : Bill :=
      { id := req.id, billNumber := billNumber, customerId := customer.id,
        userId := userId, totalAmount := totalAmount,
        discountPercent := discountPercent, discountAmount := discountAmount,
        finalAmount := finalAmount,
        paymentMethod := req.paymentMethod.getD PaymentMethod.CASH,
        paymentStatus := persisted, transactionId := none, paidAt := none,
        items := acc.billItems }
    Except.ok ({ db1 with products := acc.products, bills := db1.bills ++ [bill] }, bill)

/-- The unguarded POST /api/bills handler.  `prisma.$transaction` aborts on
a thrown error, so the pre-call state is kept and the catch answers 500;
on success the route answers 201 with the bill.  This variant persists
`paymentStatus: "PAID"` verbatim. -/
def billsPost (d : Date) (db : Db) (req : BillRequest) : Nat × Db × Option Bill :=
  match createBillCore d PaymentStatus.PAID none db req with
  | Except.ok (db2, b) => (201, db2, some b)
  | Except.error _ => (500, db, none)

/-- The guarded POST /api/bills handler (same transaction body, but the
request's validated-and-defaulted `paymentStatus` is persisted and the
bill is linked to the authenticated user). -/
def billsPostGuarded (d : Date) (uid : Nat) (db : Db) (req : BillRequest) :
    Nat × Db × Option Bill :=
  match createBillCore d (req.paymentStatus.getD PaymentStatus.PENDING) (some uid) db req with
  | Except.ok (db2, b) => (201, db2, some b)
  | Except.error _ => (500, db, none)

/-- A request line that makes the transaction throw against store `ps`:
its product is missing, or its requested quantity exceeds the product's
current stock. -/
def badItemB (ps : List Product) (it : ReqItem) : Bool :=
  match findProduct ps it.productId with
  | none => true
  | some p => decide (p.stock < (it.quantity : Int))

/-- Through the `findProduct` lens, every product of `cur` is the product
of `orig` with the same lookup key and a stock that has not increased. -/
def productsLE (cur orig : List Product) : Prop :=
  ∀ pid : String,
    (findProduct cur pid = none ↔ findProduct orig pid = none) ∧
    ∀ a b, findProduct cur pid = some a → findProduct orig pid = some b →
      a.stock ≤ b.stock

theorem productsLE_refl (ps : List Product) : productsLE ps ps := by
  intro pid
  refine ⟨Iff.rfl, ?_⟩
  intro a b ha hb
  rw [ha] at hb
  cases hb
  exact le_refl _

theorem productsLE_trans {p q r : List Product}
    (h1 : productsLE p q) (h2 : productsLE q r) : productsLE p r := by
  intro pid
  obtain ⟨h1n, h1s⟩ := h1 pid
  obtain ⟨h2n, h2s⟩ := h2 pid
  refine ⟨h1n.trans h2n, ?_⟩
  intro a b ha hb
  cases hq : findProduct q pid with
  | none =>
    rw [h2n.mp hq] at hb
    cases hb
  | some m => exact le_trans (h1s a m ha hq) (h2s m b hq hb)

theorem findProduct_map (ps : List Product) (g : Product → Product)
    (hg : ∀ p, (g p).id = p.id) (pid : String) :
    findProduct (ps.map g) pid = (findProduct ps pid).map g := by
  induction ps with
  | nil => rfl
  | cons p rest ih =>
    simp only [List.map_cons, findProduct, List.find?] at ih ⊢
    rw [hg p]
    cases p.id == pid
    · exact ih
    · rfl

theorem processItem_ok {acc : ItemAcc} {it : ReqItem} {acc' : ItemAcc}
    (h : processItem acc it = Except.ok acc') :
    ∃ product, findProduct acc.products it.productId = some product ∧
      ¬ product.stock < (it.quantity : Int) ∧
      acc' = { products := acc.products.map (fun q =>
                 if q.id == it.productId then
                   { q with
                       stock := product.stock - (it.quantity : Int),
                       availabilityStatus :=
                         if product.stock - (it.quantity : Int) > 0 then "In Stock"
                         else "Out of Stock" }
                 else q),
               total := acc.total + product.price * (it.quantity : Rat),
               billItems := acc.billItems ++
                 [{ productId := it.productId, quantity := it.quantity,
                    unitPrice := product.price,
                    totalPrice := product.price * (it.quantity : Rat) }] } := by
  cases hf : findProduct acc.products it.productId with
  | none =>
    simp only [processItem, hf] at h
    exact Except.noConfusion h
  | some product =>
    simp only [processItem, hf] at h
    by_cases hs : product.stock < (it.quantity : Int)
    · rw [if_pos hs] at h
      exact Except.noConfusion h
    · rw [if_neg hs] at h
      injection h with h2
      subst h2
      exact ⟨product, rfl, hs, rfl⟩

theorem productsLE_step {acc : ItemAcc} {it : ReqItem} {acc' : ItemAcc}
    (h : processItem acc it = Except.ok acc') :
    productsLE acc'.products acc.products := by
  obtain ⟨product, hf, hs, rfl⟩ := processItem_ok h
  intro pid
  have hg : ∀ p : Product,
      ((fun q =>
        if q.id == it.productId then
          { q with
              stock := product.stock - (it.quantity : Int),
              availabilityStatus :=
                if product.stock - (it.quantity : Int) > 0 then "In Stock"
                else "Out of Stock" }
        else q) p).id = p.id := by
    intro p
    by_cases hid : (p.id == it.productId) = true
    · simp [hid]
    · simp [hid]
  rw [findProduct_map _ _ hg pid]
  constructor
  · cases findProduct acc.products pid <;> simp
  · intro a b ha hb
    rw [hb, Option.map_some'] at ha
    injection ha with ha2
    subst ha2
    by_cases hid : (b.id == it.productId) = true
    · have hbpid : b.id = pid := by
        have hsome := List.find?_some hb
        exact of_decide_eq_true (by simpa using hsome)
      have hbit : b.id = it.productId := by simpa using hid
      have hfb : findProduct acc.products it.productId = some b := by
        rw [← hbit, hbpid] at hf ⊢
        exact hb
      rw [hf] at hfb
      injection hfb with h3
      subst h3
      simp only [hid, if_true]
      omega
    · have hf2 : (b.id == it.productId) = false := by
        cases hbe : b.id == it.productId
        · rfl
        · exact absurd hbe hid
      simp [hf2]

theorem processItems_aux_error (orig : List Product) :
    ∀ (items : List ReqItem) (acc : ItemAcc),
      productsLE acc.products orig →
      (∃ it ∈ items, badItemB orig it = true) →
      ∃ e, items.foldlM processItem acc = Except.error e := by
  intro items
  induction items with
  | nil =>
    intro acc _ h
    obtain ⟨it, hmem, -⟩ := h
    cases hmem
  | cons it rest ih =>
    intro acc hLE h
    cases hpi : processItem acc it with
    | error e =>
      refine ⟨e, ?_⟩
      rw [List.foldlM_cons, hpi]
      rfl
    | ok acc1 =>
      have hLE1 : productsLE acc1.products orig :=
        productsLE_trans (productsLE_step hpi) hLE
      obtain ⟨w, hw, hbad⟩ := h
      rcases List.mem_cons.mp hw with rfl | hwr
      · exfalso
        obtain ⟨product, hf, hs, -⟩ := processItem_ok hpi
        unfold badItemB at hbad
        cases ho : findProduct orig w.productId with
        | none =>
          have : findProduct acc.products w.productId = none := (hLE w.productId).1.mpr ho
          rw [this] at hf
          cases hf
        | some p =>
          rw [ho] at hbad
          have hple : product.stock ≤ p.stock := (hLE w.productId).2 product p hf ho
          have hplt : p.stock < (w.quantity : Int) := of_decide_eq_true hbad
          exact hs (lt_of_le_of_lt hple hplt)
      · obtain ⟨e, he⟩ := ih acc1 hLE1 ⟨w, hwr, hbad⟩
        refine ⟨e, ?_⟩
        rw [List.foldlM_cons, hpi]
        exact he

theorem processItems_error (ps : List Product) (items : List ReqItem)
    (h : ∃ it ∈ items, badItemB ps it = true) :
    ∃ e, processItems ps items = Except.error e :=
  processItems_aux_error ps items _ (productsLE_refl ps) h

theorem findOrCreateCustomer_products (db : Db) (nm mob : String)
    (email addr : Option String) :
    (findOrCreateCustomer db nm mob email addr).2.products = db.products := by
  unfold findOrCreateCustomer
  cases db.customers.find? (fun c => c.name == nm && c.mobileNumber == mob) <;> rfl

/-- Claim C1: a bill-creation request with a line whose product is missing
or whose quantity exceeds current stock makes the whole transaction abort:
the store (customers, product stocks, bills) is exactly the pre-call store
and the route answers 500 with no bill, in both the unguarded and the
guarded variant of POST /api/bills. -/
theorem C1_transaction_rollback (d : Date) (uid : Nat) (db : Db) (req : BillRequest)
    (h : ∃ it ∈ req.items, badItemB db.products it = true) :
    billsPost d db req = (500, db, none) ∧
    billsPostGuarded d uid db req = (500, db, none) := by
  obtain ⟨e, he⟩ := processItems_error db.products req.items h
  have hcore : ∀ (ps : PaymentStatus) (uidv : Option Nat),
      createBillCore d ps uidv db req = Except.error e := by
    intro ps uidv
    simp only [createBillCore, findOrCreateCustomer_products, he]
  constructor
  · unfold billsPost
    rw [hcore]
  · unfold billsPostGuarded
    rw [hcore]

/-- Concrete date used by the witnesses. -/
def dateW : Date := { year := 2026, month := 1, day := 7 }

def prodW : Product :=
  { id := "p1", title := "Pen", price := 5, stock := 3, availabilityStatus := "In Stock" }

def dbW : Db := { products := [prodW], customers := [], bills := [], nextCustomerId := 1 }

def reqBadW : BillRequest :=
  { id := "b1", customerName := "A", mobileNumber := "9999999999",
    email := none, address := none,
    items := [{ productId := "p1", quantity := 10 }],
    discountPercent := none, paymentMethod := none, paymentStatus := none }

theorem C1_transaction_rollback_witness :
    billsPost dateW dbW reqBadW = (500, dbW, none) ∧
    billsPostGuarded dateW 1 dbW reqBadW = (500, dbW, none) :=
  C1_transaction_rollback dateW 1 dbW reqBadW (by decide)

theorem C3_bill_number_allocation_witness :
    serializedRun dateW 3 = (List.range 3).map (fun j => dayCode dateW ++ pad4 (j + 1)) :=
  (C3_bill_number_allocation dateW 3 (by decide)).1

/-! ### Amount arithmetic of a persisted bill (C8) and the payment-status
divergence between the two POST /api/bills variants (C10) -/

/-- The sum of `unitPrice × quantity` over a list of bill lines. -/
def itemsTotal (l : List BillItem) : Rat :=
  (l.map (fun i => i.unitPrice * (i.quantity : Rat))).sum

theorem processItem_total {acc : ItemAcc} {it : ReqItem} {acc' : ItemAcc}
    (h : processItem acc it = Except.ok acc') :
    acc'.total - itemsTotal acc'.billItems = acc.total - itemsTotal acc.billItems := by
  obtain ⟨product, -, -, rfl⟩ := processItem_ok h
  simp only [itemsTotal, List.map_append, List.sum_append, List.map_cons, List.map_nil,
    List.sum_cons, List.sum_nil]
  ring

theorem processItems_total :
    ∀ (items : List ReqItem) (acc acc' : ItemAcc),
      items.foldlM processItem acc = Except.ok acc' →
      acc'.total - itemsTotal acc'.billItems = acc.total - itemsTotal acc.billItems := by
  intro items
  induction items with
  | nil =>
    intro acc acc' h
    injection h with h2
    subst h2
    rfl
  | cons it rest ih =>
    intro acc acc' h
    rw [List.foldlM_cons] at h
    cases hpi : processItem acc it with
    | error e => rw [hpi] at h; exact Except.noConfusion h
    | ok acc1 =>
      rw [hpi] at h
      have h1 := processItem_total hpi
      have h2 := ih acc1 acc' h
      rw [h2, h1]

theorem createBillCore_ok {d : Date} {persisted : PaymentStatus} {userId : Option Nat}
    {db : Db} {req : BillRequest} {db' : Db} {b : Bill}
    (h : createBillCore d persisted userId db req = Except.ok (db', b)) :
    ∃ acc, processItems
        (findOrCreateCustomer db req.customerName req.mobileNumber req.email req.address).2.products
        req.items = Except.ok acc ∧
      b.totalAmount = acc.total ∧
      b.items = acc.billItems ∧
      b.discountPercent = req.discountPercent.getD 0 ∧
      b.discountAmount = acc.total * req.discountPercent.getD 0 / 100 ∧
      b.finalAmount = acc.total - acc.total * req.discountPercent.getD 0 / 100 ∧
      b.paymentStatus = persisted := by
  simp only [createBillCore] at h
  cases hpi : processItems
      (findOrCreateCustomer db req.customerName req.mobileNumber req.email req.address).2.products
      req.items with
  | error e => rw [hpi] at h; exact Except.noConfusion h
  | ok acc =>
    rw [hpi] at h
    injection h with h2
    injection h2 with hdb hbill
    subst hbill
    exact ⟨acc, rfl, rfl, rfl, rfl, rfl, rfl, rfl⟩

/-- Claim C8: a bill persisted by the creation transaction satisfies
`discountAmount = totalAmount × discountPercent / 100` and
`finalAmount = totalAmount − discountAmount` exactly, and its
`totalAmount` is the sum of `unitPrice × quantity` over its line items
(amounts are exact rationals in the model). -/
theorem C8_amount_arithmetic (d : Date) (persisted : PaymentStatus) (userId : Option Nat)
    (db : Db) (req : BillRequest) (db' : Db) (b : Bill)
    (hdp : 0 ≤ req.discountPercent.getD 0 ∧ req.discountPercent.getD 0 ≤ 100)
    (h : createBillCore d persisted userId db req = Except.ok (db', b)) :
    b.discountAmount = b.totalAmount * b.discountPercent / 100 ∧
    b.finalAmount = b.totalAmount - b.discountAmount ∧
    b.totalAmount = itemsTotal b.items ∧
    b.discountPercent = req.discountPercent.getD 0 := by
  obtain ⟨acc, hpi, htot, hitems, hdpf, hdisc, hfin, -⟩ := createBillCore_ok h
  have hsum : acc.total = itemsTotal acc.billItems := by
    have := processItems_total req.items _ _ hpi
    simp only [itemsTotal, List.map_nil, List.sum_nil] at this
    have h0 : itemsTotal acc.billItems = (acc.billItems.map
        (fun i => i.unitPrice * (i.quantity : Rat))).sum := rfl
    rw [h0]
    linarith [this]
  refine ⟨?_, ?_, ?_, hdpf⟩
  · rw [hdisc, htot, hdpf]
  · rw [hfin, htot, hdisc]
  · rw [htot, hitems, hsum]

def reqGoodW : BillRequest :=
  { id := "b1", customerName := "A", mobileNumber := "9999999999",
    email := none, address := none,
    items := [{ productId := "p1", quantity := 2 }],
    discountPercent := some 10, paymentMethod := none, paymentStatus := none }

def custExpectedW : Customer :=
  { id := 1, name := "A", mobileNumber := "9999999999", email := none, address := none }

def billExpectedW : Bill :=
  { id := "b1", billNumber := "BILL202601070001".toList, customerId := 1,
    userId := none, totalAmount := 10, discountPercent := 10,
    discountAmount := 1, finalAmount := 9,
    paymentMethod := PaymentMethod.CASH, paymentStatus := PaymentStatus.PAID,
    transactionId := none, paidAt := none,
    items := [{ productId := "p1", quantity := 2, unitPrice := 5, totalPrice := 10 }] }

def prodAfterW : Product :=
  { id := "p1", title := "Pen", price := 5, stock := 1, availabilityStatus := "In Stock" }

def dbExpectedW : Db :=
  { products := [prodAfterW], customers := [custExpectedW],
    bills := [billExpectedW], nextCustomerId := 2 }

theorem C8_amount_arithmetic_witness :
    billExpectedW.discountAmount = billExpectedW.totalAmount * billExpectedW.discountPercent / 100 ∧
    billExpectedW.finalAmount = billExpectedW.totalAmount - billExpectedW.discountAmount ∧
    billExpectedW.totalAmount = itemsTotal billExpectedW.items ∧
    billExpectedW.discountPercent = reqGoodW.discountPercent.getD 0 :=
  C8_amount_arithmetic dateW PaymentStatus.PAID none dbW reqGoodW dbExpectedW billExpectedW
    (by constructor <;> norm_num [reqGoodW]) (by with_unfolding_all rfl)

theorem createBillCore_paymentStatus {d : Date} {persisted : PaymentStatus}
    {userId : Option Nat} {db : Db} {req : BillRequest} {db' : Db} {b : Bill}
    (h : createBillCore d persisted userId db req = Except.ok (db', b)) :
    b.paymentStatus = persisted := by
  obtain ⟨-, -, -, -, -, -, -, hps⟩ := createBillCore_ok h
  exact hps

/-- Claim C10: for any accepted request, the unguarded POST /api/bills
variant persists paymentStatus PAID regardless of the request value, while
the guarded variant in the same file persists the supplied (validated and
PENDING-defaulted) value. -/
theorem C10_payment_status_divergence (d : Date) (uid : Nat) (db : Db) (req : BillRequest)
    (db1 db2 : Db) (b1 b2 : Bill)
    (h1 : billsPost d db req = (201, db1, some b1))
    (h2 : billsPostGuarded d uid db req = (201, db2, some b2)) :
    b1.paymentStatus = PaymentStatus.PAID ∧
    b2.paymentStatus = req.paymentStatus.getD PaymentStatus.PENDING := by
  constructor
  · unfold billsPost at h1
    cases hc : createBillCore d PaymentStatus.PAID none db req with
    | error e =>
      rw [hc] at h1
      injection h1 with ha hb
      exact absurd ha (by decide)
    | ok p =>
      rw [hc] at h1
      obtain ⟨dbv, bv⟩ := p
      injection h1 with ha hb
      injection hb with hb1 hb2
      injection hb2 with hb3
      subst hb3
      exact createBillCore_paymentStatus hc
  · unfold billsPostGuarded at h2
    cases hc : createBillCore d (req.paymentStatus.getD PaymentStatus.PENDING) (some uid) db req with
    | error e =>
      rw [hc] at h2
      injection h2 with ha hb
      exact absurd ha (by decide)
    | ok p =>
      rw [hc] at h2
      obtain ⟨dbv, bv⟩ := p
      injection h2 with ha hb
      injection hb with hb1 hb2
      injection hb2 with hb3
      subst hb3
      exact createBillCore_paymentStatus hc

def billExpectedGuardedW : Bill :=
  { id := "b1", billNumber := "BILL202601070001".toList, customerId := 1,
    userId := some 7, totalAmount := 10, discountPercent := 10,
    discountAmount := 1, finalAmount := 9,
    paymentMethod := PaymentMethod.CASH, paymentStatus := PaymentStatus.PENDING,
    transactionId := none, paidAt := none,
    items := [{ productId := "p1", quantity := 2, unitPrice := 5, totalPrice := 10 }] }

def dbExpectedGuardedW : Db :=
  { products := [prodAfterW], customers := [custExpectedW],
    bills := [billExpectedGuardedW], nextCustomerId := 2 }

theorem C10_payment_status_divergence_witness :
    billExpectedW.paymentStatus = PaymentStatus.PAID ∧
    billExpectedGuardedW.paymentStatus = reqGoodW.paymentStatus.getD PaymentStatus.PENDING :=
  C10_payment_status_divergence dateW 7 dbW reqGoodW dbExpectedW dbExpectedGuardedW
    billExpectedW billExpectedGuardedW (by with_unfolding_all rfl) (by with_unfolding_all rfl)

/-! ### Subscription data model (User, Subscription, UsageRecord,
SubscriptionBill) and the subscription/billing operations -/

inductive PlanType
  | MONTHLY
  | ANNUAL
  | CUSTOM
deriving DecidableEq

inductive SubStatus
  | ACTIVE
  | SUSPENDED
  | EXPIRED
  | CANCELLED
deriving DecidableEq

inductive SubBillStatus
  | PENDING
  | PAID
  | OVERDUE
deriving DecidableEq

/-- A local user row, provisioned lazily from the identity provider. -/
structure User where
  id : Nat
  clerkId : String
  email : String
  firstName : String
  lastName : String
deriving DecidableEq

/-- A subscription row.  Timestamps are `Int` instants ordered by `<`. -/
structure Subscription where
  id : Nat
  userId : Nat
  planType : PlanType
  status : SubStatus
  amount : Rat
  startDate : Int
  endDate : Option Int
  nextBillingDate : Int
  billsGenerated : Nat
  createdAt : Int
deriving DecidableEq

structure SubscriptionBill where
  userId : Nat
  billNumber : Str
  amount : Rat
  billingMonth : Nat
  billingYear : Nat
  billsCount : Nat
  status : SubBillStatus
  dueDate : Int
deriving DecidableEq

structure UsageRecord where
  userId : Nat
  billId : String
  month : Nat
  year : Nat
deriving DecidableEq

/-- The relational store the subscription routes, middleware and cron
sweeps share.  `nextId` models Prisma's fresh-id generation. -/
structure SubDb where
  users : List User
  subscriptions : List Subscription
  usageRecords : List UsageRecord
  subscriptionBills : List SubscriptionBill
  nextId : Nat
deriving DecidableEq

/-- `new Date()` as the subscription code reads it: a timestamp for
comparisons plus the calendar month (`getMonth() + 1`) and year. -/
structure Instant where
  time : Int
  month : Nat
  year : Nat
deriving DecidableEq

def prevMonth (i : Instant) : Nat := if i.month = 1 then 12 else i.month - 1

def prevYear (i : Instant) : Nat := if i.month = 1 then i.year - 1 else i.year

/-- Model encoding of the calendar value `new Date(year, month, 11)`
written to `nextBillingDate` (never compared in the code under claim). -/
def dateValue (y m day : Nat) : Int := ((y * 12 + m) * 31 + day : Nat)

/-- `generateSubscriptionBillNumber`: tag `SUB${year}${month}`, then the
same last-of-tag / parse / increment / pad-to-four scheme as for bills. -/
def generateSubscriptionBillNumber (i : Instant) (nums : List Str) : Str :=
  let tag := "SUB".toList ++ natToDigits i.year ++ pad2 i.month
  let lastBill := listMaxStr (nums.filter (fun b => strStartsWith b tag))
  let sequence :=
    match lastBill with
    | none => 1
    | some lb => (parseDigits (lastFour lb)).getD 0 + 1
  tag ++ padLeft 4 (natToDigits sequence)

/-- `usageRecord.count` for a (user, month, year) bucket. -/
def usageCount (st : SubDb) (u m y : Nat) : Nat :=
  (st.usageRecords.filter (fun r => r.userId == u && r.month == m && r.year == y)).length

/-- `subscriptionBill.findFirst` for a (user, billingMonth, billingYear)
key, as the re-run protection reads it. -/
def subBillExists (st : SubDb) (u m y : Nat) : Bool :=
  st.subscriptionBills.any (fun b => b.userId == u && b.billingMonth == m && b.billingYear == y)

/-- Number of SubscriptionBill rows for a (user, billingMonth,
billingYear) key. -/
def subBillCountFor (st : SubDb) (u m y : Nat) : Nat :=
  (st.subscriptionBills.filter
    (fun b => b.userId == u && b.billingMonth == m && b.billingYear == y)).length

/-- The loop body of `processCustomPlanBilling` for one subscription:
count the previous month's usage, skip on zero usage or an existing bill
for the period, otherwise create the PENDING SubscriptionBill (amount =
count × ₹1, due in 15 days) and reset the subscription's counter while
advancing its next billing date. -/
def billingStep (i : Instant) (st : SubDb) (sub : Subscription) : SubDb :=
  let pm := prevMonth i
  let py := prevYear i
  let billsGenerated := usageCount st sub.userId pm py
  if billsGenerated = 0 then st
  else if subBillExists st sub.userId pm py then st
  else
    let amount : Rat := (billsGenerated : Rat) * 1
    let billNumber :=
      generateSubscriptionBillNumber i (st.subscriptionBills.map SubscriptionBill.billNumber)
    let newBill : SubscriptionBill :=
      { userId := sub.userId, billNumber := billNumber, amount := amount,
        billingMonth := pm, billingYear := py, billsCount := billsGenerated,
        status := SubBillStatus.PENDING, dueDate := i.time + 15 }
    { st with
        subscriptionBills := st.subscriptionBills ++ [newBill],
        subscriptions := st.subscriptions.map (fun s =>
          if s.id == sub.id then
            { s with nextBillingDate := dateValue i.year i.month 11, billsGenerated := 0 }
          else s) }

/-- An ACTIVE usage-based subscription, as the monthly sweep selects them. -/
def isActiveCustom (s : Subscription) : Bool :=
  s.planType == PlanType.CUSTOM && s.status == SubStatus.ACTIVE

/-- `processCustomPlanBilling`: fetch the ACTIVE CUSTOM subscriptions once,
then run the loop body for each, re-reading the store mutated so far. -/
def processCustomPlanBilling (i : Instant) (st : SubDb) : SubDb :=
  (st.subscriptions.filter isActiveCustom).foldl (billingStep i) st

/-- The bulk `updateMany` of `checkOverdueBills`: every PENDING
SubscriptionBill past its due date becomes OVERDUE. -/
def markOverdue (now : Int) (st : SubDb) : SubDb :=
  { st with subscriptionBills := st.subscriptionBills.map (fun b =>
      if b.status == SubBillStatus.PENDING && decide (b.dueDate < now) then
        { b with status := SubBillStatus.OVERDUE }
      else b) }

/-- One iteration of the suspension loop of `checkOverdueBills`:
`updateMany` the user's ACTIVE subscriptions to SUSPENDED. -/
def suspendUser (st : SubDb) (u : Nat) : SubDb :=
  { st with subscriptions := st.subscriptions.map (fun s =>
      if s.userId == u && s.status == SubStatus.ACTIVE then
        { s with status := SubStatus.SUSPENDED }
      else s) }

/-- `checkOverdueBills`: mark overdue bills, then suspend the distinct
users owning an OVERDUE bill. -/
def checkOverdueBills (now : Int) (st : SubDb) : SubDb :=
  let st1 := markOverdue now st
  let overdueUsers :=
    ((st1.subscriptionBills.filter (fun b => b.status == SubBillStatus.OVERDUE)).map
      SubscriptionBill.userId).dedup
  overdueUsers.foldl suspendUser st1

/-- `checkExpiredSubscriptions`: bulk-expire every ACTIVE subscription
whose non-null end date has passed. -/
def checkExpiredSubscriptions (now : Int) (st : SubDb) : SubDb :=
  { st with subscriptions := st.subscriptions.map (fun s =>
      if s.status == SubStatus.ACTIVE &&
          (match s.endDate with
           | some e => decide (e < now)
           | none => false) then
        { s with status := SubStatus.EXPIRED }
      else s) }

/-! ### Subscription Guard (middleware checkSubscription) and Usage
Tracker (trackBillUsage / trackUsage) -/

/-- The profile the identity provider returns for a verified token. -/
structure ClerkUser where
  id : String
  email : String
  firstName : String
  lastName : String
deriving DecidableEq

/-- The outcome of reading and verifying the Authorization header: header
absent, token rejected by the provider, or a verified profile. -/
inductive AuthInput
  | noToken
  | badToken
  | valid (cu : ClerkUser)
deriving DecidableEq

/-- What the guard does with the request: short-circuit with an HTTP
status and machine code, or attach the user and subscription and continue. -/
inductive GuardOutcome
  | fail (status : Nat) (code : String)
  | pass (userId : Nat) (sub : Subscription)
deriving DecidableEq

/-- The user's ACTIVE subscriptions ordered by `createdAt` descending,
`take: 1`: the ACTIVE subscription with the greatest `createdAt`
(first-fetched wins ties). -/
def latestActive (subs : List Subscription) (u : Nat) : Option Subscription :=
  (subs.filter (fun s => s.userId == u && s.status == SubStatus.ACTIVE)).foldl
    (fun best s =>
      match best with
      | none => some s
      | some b => if b.createdAt < s.createdAt then some s else some b)
    none

/-- The `checkSubscription` middleware: resolve the caller (401 on a
missing or invalid token), provision the local user on first use, load
the most recent ACTIVE subscription (403 NO_SUBSCRIPTION when none), mark
it EXPIRED in storage and fail 403 SUBSCRIPTION_EXPIRED when its non-null
end date has passed, fail 403 UNPAID_BILLS when a CUSTOM plan has PENDING
bills past due, otherwise attach user and subscription. -/
def checkSubscription (now : Int) (auth : AuthInput) (st : SubDb) : SubDb × GuardOutcome :=
  match auth with
  | AuthInput.noToken => (st, GuardOutcome.fail 401 "NO_TOKEN")
  | AuthInput.badToken => (st, GuardOutcome.fail 401 "INVALID_TOKEN")
  | AuthInput.valid cu =>
    match st.users.find? (fun w => w.clerkId == cu.id) with
    | none =>
      let newUser : User :=
        { id := st.nextId, clerkId := cu.id, email := cu.email,
          firstName := cu.firstName, lastName := cu.lastName }
      ({ st with users := st.users ++ [newUser], nextId := st.nextId + 1 },
        GuardOutcome.fail 403 "NO_SUBSCRIPTION")
    | some w =>
      match latestActive st.subscriptions w.id with
      | none => (st, GuardOutcome.fail 403 "NO_SUBSCRIPTION")
      | some s =>
        if (match s.endDate with
            | some e => decide (e < now)
            | none => false) then
          ({ st with subscriptions := st.subscriptions.map (fun t =>
              if t.id == s.id then { t with status := SubStatus.EXPIRED } else t) },
            GuardOutcome.fail 403 "SUBSCRIPTION_EXPIRED")
        else if s.planType == PlanType.CUSTOM &&
            (st.subscriptionBills.any (fun b =>
              b.userId == w.id && b.status == SubBillStatus.PENDING &&
                decide (b.dueDate < now))) then
          (st, GuardOutcome.fail 403 "UNPAID_BILLS")
        else (st, GuardOutcome.pass w.id s)

/-- `trackUsage`: always insert one UsageRecord for (user, bill, current
month and year); additionally increment the subscription's
`billsGenerated` counter when the plan is usage-based. -/
def trackUsage (i : Instant) (userId : Nat) (billId : String) (sub : Subscription)
    (st : SubDb) : SubDb :=
  let st1 := { st with usageRecords := st.usageRecords ++
      [{ userId := userId, billId := billId, month := i.month, year := i.year }] }
  if sub.planType == PlanType.CUSTOM then
    { st1 with subscriptions := st1.subscriptions.map (fun s =>
        if s.id == sub.id then { s with billsGenerated := s.billsGenerated + 1 } else s) }
  else st1

/-- The `trackBillUsage` response hook: fires `trackUsage` only when the
response is 201 and carries a created bill and the guard attached a user
and subscription. -/
def trackBillUsageHook (i : Instant) (statusCode : Nat) (bill : Option Bill)
    (user : Option Nat) (sub : Option Subscription) (st : SubDb) : SubDb :=
  if statusCode == 201 then
    match bill, user, sub with
    | some b, some uid, some s => trackUsage i uid b.id s st
    | _, _, _ => st
  else st

/-! ### Subscription routes (POST /api/subscriptions, POST
/api/subscriptions/cancel) -/

/-- Model of JS `setMonth(getMonth() + k)` on a timestamp (the claims
never inspect calendar arithmetic, so a month is 30 days here). -/
def addMonths (t : Int) (k : Nat) : Int := t + 30 * k

/-- Model of JS `setFullYear(getFullYear() + k)` on a timestamp. -/
def addYears (t : Int) (k : Nat) : Int := t + 365 * k

/-- POST /api/subscriptions for an authenticated user `uid`: reject with
400 when the user already has an ACTIVE subscription, otherwise create an
ACTIVE subscription with the plan's amount, end date and next billing
date. -/
def createSubscription (now : Int) (uid : Nat) (plan : PlanType) (st : SubDb) :
    SubDb × Nat :=
  if st.subscriptions.any (fun s => s.userId == uid && s.status == SubStatus.ACTIVE) then
    (st, 400)
  else
    let details : Rat × Option Int × Int :=
      match plan with
      | PlanType.MONTHLY => (100, some (addMonths now 1), addMonths now 1)
      | PlanType.ANNUAL => (500, some (addYears now 1), addYears now 1)
      | PlanType.CUSTOM => (0, none, addMonths now 1)
    let sub : Subscription :=
      { id := st.nextId, userId := uid, planType := plan, status := SubStatus.ACTIVE,
        amount := details.1, startDate := now, endDate := details.2.1,
        nextBillingDate := details.2.2, billsGenerated := 0, createdAt := now }
    ({ st with subscriptions := st.subscriptions ++ [sub], nextId := st.nextId + 1 }, 201)

/-- POST /api/subscriptions/cancel: 404 without an ACTIVE subscription,
otherwise set the found subscription CANCELLED with end date now. -/
def cancelSubscription (now : Int) (uid : Nat) (st : SubDb) : SubDb × Nat :=
  match st.subscriptions.find? (fun s => s.userId == uid && s.status == SubStatus.ACTIVE) with
  | none => (st, 404)
  | some s =>
    ({ st with subscriptions := st.subscriptions.map (fun t =>
        if t.id == s.id then { t with status := SubStatus.CANCELLED, endDate := some now }
        else t) }, 200)

/-! ### Stripe webhook handlers (routes/webhook.js and the alternate
variant that updates the bill) -/

/-- A delivered Stripe event, as `constructEvent` returns it. -/
inductive StripeEvent
  | completed (billId : String) (paymentIntent : String)
  | other (eventType : String)
deriving DecidableEq

/-- The routes/webhook.js handler: an invalid signature is rejected with
400 before anything else; with a valid signature the handler logs the
`checkout.session.completed` payload and acknowledges, but the bill
update is only a comment in the source, so no storage mutation happens. -/
def webhookHandler (sigOk : Bool) (event : StripeEvent) (db : Db) : Nat × Db :=
  if sigOk = false then (400, db)
  else
    match event with
    | StripeEvent.completed _ _ => (200, db)
    | StripeEvent.other _ => (200, db)

/-- The alternate webhook handler (the superseding copy in the sources):
on a valid `checkout.session.completed` it updates the referenced bill to
paymentStatus PAID with the transaction id, paid timestamp and CARD
method. -/
def webhookHandlerAlt (now : Int) (sigOk : Bool) (event : StripeEvent) (db : Db) :
    Nat × Db :=
  if sigOk = false then (400, db)
  else
    match event with
    | StripeEvent.completed billId pi =>
      (200, { db with bills := db.bills.map (fun b =>
          if b.id == billId then
            { b with paymentStatus := PaymentStatus.PAID, transactionId := some pi,
                     paidAt := some now, paymentMethod := PaymentMethod.CARD }
          else b) })
    | StripeEvent.other _ => (200, db)

/-! ### C2: the wired webhook handler never performs the PAID update its
own comment promises -/

def billPendingC2 : Bill :=
  { id := "bill-1", billNumber := "BILL202601070001".toList, customerId := 1,
    userId := none, totalAmount := 10, discountPercent := 0, discountAmount := 0,
    finalAmount := 10, paymentMethod := PaymentMethod.CASH,
    paymentStatus := PaymentStatus.PENDING, transactionId := none, paidAt := none,
    items := [] }

def dbC2 : Db :=
  { products := [], customers := [], bills := [billPendingC2], nextCustomerId := 2 }

/-- Claim C2 (code bug): at the failing input — a validly signed
`checkout.session.completed` event referencing the PENDING bill
"bill-1" — the wired routes/webhook.js handler acknowledges with 200 and
performs no storage mutation: the bill stays PENDING with no transaction
id and no paid timestamp, although the handler's own comment says to mark
it PAID there.  An invalid signature is rejected with 400 and also
mutates nothing (that half of the claim holds). -/
theorem C2_webhook_stub_no_update :
    webhookHandler true (StripeEvent.completed "bill-1" "pi_1") dbC2 = (200, dbC2) ∧
    ((webhookHandler true (StripeEvent.completed "bill-1" "pi_1") dbC2).2.bills.getD 0
      billPendingC2).paymentStatus = PaymentStatus.PENDING ∧
    ((webhookHandler true (StripeEvent.completed "bill-1" "pi_1") dbC2).2.bills.getD 0
      billPendingC2).transactionId = none ∧
    webhookHandler false (StripeEvent.completed "bill-1" "pi_1") dbC2 = (400, dbC2) :=
  ⟨rfl, rfl, rfl, rfl⟩

theorem webhookAlt_bills (now : Int) (billId pi : String) (db : Db) :
    (webhookHandlerAlt now true (StripeEvent.completed billId pi) db).2.bills =
      db.bills.map (fun b =>
        if b.id == billId then
          { b with paymentStatus := PaymentStatus.PAID, transactionId := some pi,
                   paidAt := some now, paymentMethod := PaymentMethod.CARD }
        else b) := rfl

/-- The alternate webhook handler in the sources does perform the update
the claim describes: the referenced bill becomes PAID with the
transaction id and timestamp, and a second delivery of the same event
leaves the status PAID (idempotent on the status, keyed by bill id). -/
theorem webhookAlt_marks_paid (now1 now2 : Int) (billId pi : String) (db : Db) :
    ∀ b ∈ ((webhookHandlerAlt now2 true (StripeEvent.completed billId pi)
        (webhookHandlerAlt now1 true (StripeEvent.completed billId pi) db).2).2).bills,
      b.id = billId → b.paymentStatus = PaymentStatus.PAID ∧
        b.transactionId = some pi ∧ b.paidAt = some now2 := by
  intro b hb hid
  rw [webhookAlt_bills, webhookAlt_bills] at hb
  obtain ⟨b1, hb1, rfl⟩ := List.mem_map.mp hb
  obtain ⟨b0, hb0, rfl⟩ := List.mem_map.mp hb1
  by_cases h0 : (b0.id == billId) = true
  · simp [h0]
  · simp only [if_neg h0] at hid ⊢
    exact absurd (by simp [hid]) h0

/-! ### C7: the Usage Tracker records usage for every plan type -/

def instC7 : Instant := { time := 1000, month := 1, year := 2026 }

def subMonthlyC7 : Subscription :=
  { id := 1, userId := 5, planType := PlanType.MONTHLY, status := SubStatus.ACTIVE,
    amount := 100, startDate := 0, endDate := some 30, nextBillingDate := 30,
    billsGenerated := 0, createdAt := 0 }

def subDbC7 : SubDb :=
  { users := [], subscriptions := [subMonthlyC7], usageRecords := [],
    subscriptionBills := [], nextId := 2 }

/-- Claim C7 counterexample: after a successful bill creation (status 201,
bill present) by a user whose active plan is MONTHLY — not usage-based —
the hook still inserts a UsageRecord, so records are not inserted "only
when the creating user's active plan is usage-based". -/
theorem C7_usage_record_counterexample :
    (trackBillUsageHook instC7 201 (some billPendingC2) (some 5) (some subMonthlyC7)
      subDbC7).usageRecords ≠ subDbC7.usageRecords := by
  intro h
  exact List.noConfusion h

/-- Claim C7 as amended: on every successful creation response (201 with a
bill, guard context attached) exactly one UsageRecord is inserted,
tagged with the producing user, the bill id and the current (month, year)
bucket, for every plan type; only the subscription's `billsGenerated`
counter increment is restricted to the usage-based plan.  Users and
SubscriptionBills are untouched. -/
theorem C7_usage_record_amended (i : Instant) (code : Nat) (b : Bill) (uid : Nat)
    (s : Subscription) (st st' : SubDb)
    (hcode : code = 201)
    (h : trackBillUsageHook i code (some b) (some uid) (some s) st = st') :
    st'.usageRecords = st.usageRecords ++
      [{ userId := uid, billId := b.id, month := i.month, year := i.year }] ∧
    st'.subscriptionBills = st.subscriptionBills ∧
    st'.users = st.users ∧
    (s.planType ≠ PlanType.CUSTOM → st'.subscriptions = st.subscriptions) ∧
    (s.planType = PlanType.CUSTOM → st'.subscriptions = st.subscriptions.map (fun t =>
      if t.id == s.id then { t with billsGenerated := t.billsGenerated + 1 } else t)) := by
  subst hcode
  subst h
  by_cases hp : (s.planType == PlanType.CUSTOM) = true
  · simp only [trackBillUsageHook, trackUsage, hp, if_true]
    refine ⟨rfl, rfl, rfl, ?_, ?_⟩
    · intro hne
      exact absurd (by simpa using hp) hne
    · intro _
      rfl
  · simp only [trackBillUsageHook, trackUsage, hp]
    refine ⟨rfl, rfl, rfl, ?_, ?_⟩
    · intro _
      rfl
    · intro heq
      exact absurd (by simp [heq]) hp

def subDbC7After : SubDb :=
  { users := [], subscriptions := [subMonthlyC7],
    usageRecords := [{ userId := 5, billId := "bill-1", month := 1, year := 2026 }],
    subscriptionBills := [], nextId := 2 }

theorem C7_usage_record_amended_witness :
    subDbC7After.usageRecords = subDbC7.usageRecords ++
      [{ userId := 5, billId := billPendingC2.id, month := instC7.month, year := instC7.year }] ∧
    subDbC7After.subscriptionBills = subDbC7.subscriptionBills ∧
    subDbC7After.users = subDbC7.users ∧
    (subMonthlyC7.planType ≠ PlanType.CUSTOM → subDbC7After.subscriptions = subDbC7.subscriptions) ∧
    (subMonthlyC7.planType = PlanType.CUSTOM → subDbC7After.subscriptions =
      subDbC7.subscriptions.map (fun t =>
        if t.id == subMonthlyC7.id then { t with billsGenerated := t.billsGenerated + 1 }
        else t)) :=
  C7_usage_record_amended instC7 201 billPendingC2 5 subMonthlyC7 subDbC7 subDbC7After
    rfl (by with_unfolding_all rfl)

/-! ### C6: the guard's expiry branch -/

/-- Claim C6: when the guard resolves an existing user whose
most-recently-created ACTIVE subscription has a non-null end date in the
past, it answers 403 with code SUBSCRIPTION_EXPIRED and the subscription
row is updated to status EXPIRED in storage. -/
theorem C6_guard_expiry (now : Int) (st : SubDb) (cu : ClerkUser) (w : User)
    (s : Subscription) (e : Int)
    (hw : st.users.find? (fun x => x.clerkId == cu.id) = some w)
    (hs : latestActive st.subscriptions w.id = some s)
    (he : s.endDate = some e) (hlt : e < now) :
    (checkSubscription now (AuthInput.valid cu) st).2 =
      GuardOutcome.fail 403 "SUBSCRIPTION_EXPIRED" ∧
    ∀ t ∈ (checkSubscription now (AuthInput.valid cu) st).1.subscriptions,
      t.id = s.id → t.status = SubStatus.EXPIRED := by
  have hc : (match s.endDate with
      | some e => decide (e < now)
      | none => false) = true := by
    rw [he]
    exact decide_eq_true hlt
  constructor
  · simp only [checkSubscription, hw, hs, hc, if_true]
  · intro t ht hid
    simp only [checkSubscription, hw, hs, hc, if_true] at ht
    obtain ⟨t0, -, rfl⟩ := List.mem_map.mp ht
    by_cases h0 : (t0.id == s.id) = true
    · simp only [h0, if_true]
    · rw [if_neg h0] at hid ⊢
      exact absurd (by simp [hid]) h0

/-! ### C5: one run of the overdue sweep -/

theorem suspendUser_bills (st : SubDb) (u : Nat) :
    (suspendUser st u).subscriptionBills = st.subscriptionBills := rfl

theorem foldl_suspend_bills :
    ∀ (users : List Nat) (st : SubDb),
      (users.foldl suspendUser st).subscriptionBills = st.subscriptionBills := by
  intro users
  induction users with
  | nil => intro st; rfl
  | cons v rest ih =>
    intro st
    rw [List.foldl_cons, ih, suspendUser_bills]

theorem suspendUser_subs_getElem? (st : SubDb) (u : Nat) (k : Nat) :
    (suspendUser st u).subscriptions[k]? = (st.subscriptions[k]?).map (fun s =>
      if s.userId == u && s.status == SubStatus.ACTIVE then
        { s with status := SubStatus.SUSPENDED }
      else s) := by
  simp [suspendUser, List.getElem?_map]

theorem suspend_fold_keeps :
    ∀ (users : List Nat) (st : SubDb) (k : Nat) (s : Subscription),
      st.subscriptions[k]? = some s → s.status = SubStatus.SUSPENDED →
      ∃ s', (users.foldl suspendUser st).subscriptions[k]? = some s' ∧
        s'.userId = s.userId ∧ s'.status = SubStatus.SUSPENDED := by
  intro users
  induction users with
  | nil =>
    intro st k s hk hs
    exact ⟨s, hk, rfl, hs⟩
  | cons v rest ih =>
    intro st k s hk hs
    rw [List.foldl_cons]
    have hcond : (s.userId == v && s.status == SubStatus.ACTIVE) = false := by
      rw [hs]
      simp
    have hk2 : (suspendUser st v).subscriptions[k]? = some s := by
      rw [suspendUser_subs_getElem?, hk, Option.map_some', hcond]
      rfl
    exact ih (suspendUser st v) k s hk2 hs

theorem suspend_fold_suspends :
    ∀ (users : List Nat) (st : SubDb) (k : Nat) (s : Subscription) (u : Nat),
      st.subscriptions[k]? = some s → s.userId = u → u ∈ users →
      (s.status = SubStatus.ACTIVE ∨ s.status = SubStatus.SUSPENDED) →
      ∃ s', (users.foldl suspendUser st).subscriptions[k]? = some s' ∧
        s'.userId = u ∧ s'.status = SubStatus.SUSPENDED := by
  intro users
  induction users with
  | nil =>
    intro st k s u hk hu hmem
    cases hmem
  | cons v rest ih =>
    intro st k s u hk hu hmem hstat
    rw [List.foldl_cons]
    by_cases hvu : v = u
    · subst hvu
      rcases hstat with hact | hsusp
      · have hcond : (s.userId == v && s.status == SubStatus.ACTIVE) = true := by
          rw [hu, hact]
          simp
        have hk2 : (suspendUser st v).subscriptions[k]? =
            some { s with status := SubStatus.SUSPENDED } := by
          rw [suspendUser_subs_getElem?, hk, Option.map_some', hcond]
          rfl
        obtain ⟨s', hs', hid', hstat'⟩ :=
          suspend_fold_keeps rest (suspendUser st v) k _ hk2 rfl
        exact ⟨s', hs', by rw [hid']; exact hu, hstat'⟩
      · have hcond : (s.userId == v && s.status == SubStatus.ACTIVE) = false := by
          rw [hsusp]
          simp
        have hk2 : (suspendUser st v).subscriptions[k]? = some s := by
          rw [suspendUser_subs_getElem?, hk, Option.map_some', hcond]
          rfl
        obtain ⟨s', hs', hid', hstat'⟩ :=
          suspend_fold_keeps rest (suspendUser st v) k s hk2 hsusp
        exact ⟨s', hs', by rw [hid']; exact hu, hstat'⟩
    · have hcond : (s.userId == v && s.status == SubStatus.ACTIVE) = false := by
        have : (s.userId == v) = false := by
          rw [hu]
          exact beq_false_of_ne (fun hc => hvu hc.symm)
        rw [this]
        rfl
      have hk2 : (suspendUser st v).subscriptions[k]? = some s := by
        rw [suspendUser_subs_getElem?, hk, Option.map_some', hcond]
        rfl
      have hmem' : u ∈ rest := by
        rcases List.mem_cons.mp hmem with h | h
        · exact absurd h.symm hvu
        · exact h
      exact ih (suspendUser st v) k s u hk2 hu hmem' hstat

theorem checkOverdueBills_unfold (now : Int) (st : SubDb) :
    checkOverdueBills now st =
      ((((markOverdue now st).subscriptionBills.filter
          (fun b => b.status == SubBillStatus.OVERDUE)).map
          SubscriptionBill.userId).dedup).foldl suspendUser (markOverdue now st) := rfl

/-- Claim C5: after one run of the overdue sweep, every SubscriptionBill
that was PENDING with a due date before the sweep time is OVERDUE, and
for every user owning an OVERDUE bill in the resulting store, each of
that user's subscriptions that was ACTIVE is SUSPENDED. -/
theorem C5_overdue_sweep (now : Int) (st : SubDb) :
    (∀ (k : Nat) (dB : SubscriptionBill), k < st.subscriptionBills.length →
      (st.subscriptionBills.getD k dB).status = SubBillStatus.PENDING →
      (st.subscriptionBills.getD k dB).dueDate < now →
      ((checkOverdueBills now st).subscriptionBills.getD k dB).status =
        SubBillStatus.OVERDUE) ∧
    (∀ u : Nat, (∃ b ∈ (checkOverdueBills now st).subscriptionBills,
        b.userId = u ∧ b.status = SubBillStatus.OVERDUE) →
      ∀ (k : Nat) (dS : Subscription), k < st.subscriptions.length →
        (st.subscriptions.getD k dS).userId = u →
        (st.subscriptions.getD k dS).status = SubStatus.ACTIVE →
        ((checkOverdueBills now st).subscriptions.getD k dS).status =
          SubStatus.SUSPENDED) := by
  have hbillseq : (checkOverdueBills now st).subscriptionBills =
      (markOverdue now st).subscriptionBills := by
    rw [checkOverdueBills_unfold, foldl_suspend_bills]
  constructor
  · intro k dB hk hpend hdue
    have hksome : st.subscriptionBills[k]? = some (st.subscriptionBills.getD k dB) := by
      rw [List.getElem?_eq_getElem hk, List.getD_eq_getElem?_getD,
        List.getElem?_eq_getElem hk]
      rfl
    have hcond : ((st.subscriptionBills.getD k dB).status == SubBillStatus.PENDING &&
        decide ((st.subscriptionBills.getD k dB).dueDate < now)) = true := by
      rw [hpend, decide_eq_true hdue]
      rfl
    have hfin : (markOverdue now st).subscriptionBills.getD k dB =
        { st.subscriptionBills.getD k dB with status := SubBillStatus.OVERDUE } := by
      rw [List.getD_eq_getElem?_getD,
        show (markOverdue now st).subscriptionBills = st.subscriptionBills.map (fun b =>
          if b.status == SubBillStatus.PENDING && decide (b.dueDate < now) then
            { b with status := SubBillStatus.OVERDUE }
          else b) from rfl,
        List.getElem?_map, hksome, Option.map_some', hcond]
      rfl
    rw [hbillseq, hfin]
  · intro u hex k dS hk huid hact
    have husers : u ∈ (((markOverdue now st).subscriptionBills.filter
        (fun b => b.status == SubBillStatus.OVERDUE)).map SubscriptionBill.userId).dedup := by
      obtain ⟨b, hbmem, hbu, hbst⟩ := hex
      rw [hbillseq] at hbmem
      refine List.mem_dedup.mpr (List.mem_map.mpr ⟨b, List.mem_filter.mpr ⟨hbmem, ?_⟩, hbu⟩)
      rw [hbst]
      rfl
    have hksome : (markOverdue now st).subscriptions[k]? =
        some (st.subscriptions.getD k dS) := by
      show st.subscriptions[k]? = _
      rw [List.getElem?_eq_getElem hk, List.getD_eq_getElem?_getD,
        List.getElem?_eq_getElem hk]
      rfl
    obtain ⟨s', hs', hid', hstat'⟩ :=
      suspend_fold_suspends _ (markOverdue now st) k _ u hksome huid husers (Or.inl hact)
    rw [checkOverdueBills_unfold, List.getD_eq_getElem?_getD, hs']
    exact hstat'

def subBillOverdueC5 : SubscriptionBill :=
  { userId := 5, billNumber := "SUB2025120001".toList, amount := 3,
    billingMonth := 12, billingYear := 2025, billsCount := 3,
    status := SubBillStatus.PENDING, dueDate := 50 }

def subActiveC5 : Subscription :=
  { id := 1, userId := 5, planType := PlanType.CUSTOM, status := SubStatus.ACTIVE,
    amount := 0, startDate := 0, endDate := none, nextBillingDate := 30,
    billsGenerated := 0, createdAt := 0 }

def subDbC5 : SubDb :=
  { users := [], subscriptions := [subActiveC5], usageRecords := [],
    subscriptionBills := [subBillOverdueC5], nextId := 2 }

set_option maxRecDepth 10000 in
theorem C5_overdue_sweep_witness :
    ((checkOverdueBills 100 subDbC5).subscriptionBills.getD 0 subBillOverdueC5).status =
      SubBillStatus.OVERDUE ∧
    ((checkOverdueBills 100 subDbC5).subscriptions.getD 0 subActiveC5).status =
      SubStatus.SUSPENDED := by
  have h := C5_overdue_sweep 100 subDbC5
  refine ⟨h.1 0 subBillOverdueC5 (by decide) (by with_unfolding_all rfl) (by decide), ?_⟩
  refine h.2 5 ⟨{ subBillOverdueC5 with status := SubBillStatus.OVERDUE },
    by with_unfolding_all decide, by with_unfolding_all rfl, rfl⟩
    0 subActiveC5 (by decide) (by with_unfolding_all rfl) (by with_unfolding_all rfl)

/-! ### C4: the monthly invoice generation is idempotent per billing period -/

/-- The fields of a subscription row the monthly sweep's selection and
per-row work read: owner, plan type and status. -/
def subView (s : Subscription) : Nat × PlanType × SubStatus := (s.userId, s.planType, s.status)

theorem billingStep_usage (i : Instant) (st : SubDb) (sub : Subscription) :
    (billingStep i st sub).usageRecords = st.usageRecords := by
  simp only [billingStep]
  split
  · rfl
  · split
    · rfl
    · rfl

theorem foldl_billing_usage (i : Instant) :
    ∀ (l : List Subscription) (st : SubDb),
      (l.foldl (billingStep i) st).usageRecords = st.usageRecords := by
  intro l
  induction l with
  | nil => intro st; rfl
  | cons sub rest ih =>
    intro st
    rw [List.foldl_cons, ih, billingStep_usage]

theorem foldl_billing_usageCount (i : Instant) (l : List Subscription) (st : SubDb)
    (u m y : Nat) :
    usageCount (l.foldl (billingStep i) st) u m y = usageCount st u m y := by
  unfold usageCount
  rw [foldl_billing_usage]

theorem map_eq_of_forall {α β : Type} (f g : α → β) (l : List α)
    (h : ∀ a, f a = g a) : l.map f = l.map g := by
  induction l with
  | nil => rfl
  | cons a rest ih => simp [h a, ih]

theorem billingStep_subsView (i : Instant) (st : SubDb) (sub : Subscription) :
    (billingStep i st sub).subscriptions.map subView = st.subscriptions.map subView := by
  simp only [billingStep]
  split
  · rfl
  · split
    · rfl
    · simp only [List.map_map]
      refine map_eq_of_forall _ _ _ ?_
      intro s
      simp only [Function.comp]
      by_cases hid : (s.id == sub.id) = true
      · rw [if_pos hid]
        rfl
      · rw [if_neg hid]

theorem foldl_billing_subsView (i : Instant) :
    ∀ (l : List Subscription) (st : SubDb),
      (l.foldl (billingStep i) st).subscriptions.map subView =
        st.subscriptions.map subView := by
  intro l
  induction l with
  | nil => intro st; rfl
  | cons sub rest ih =>
    intro st
    rw [List.foldl_cons, ih, billingStep_subsView]

theorem subBillExists_iff (st : SubDb) (u m y : Nat) :
    subBillExists st u m y = true ↔ 0 < subBillCountFor st u m y := by
  unfold subBillExists subBillCountFor
  rw [List.any_eq_true, List.length_pos_iff_exists_mem]
  constructor
  · rintro ⟨b, hb, hp⟩
    exact ⟨b, List.mem_filter.mpr ⟨hb, hp⟩⟩
  · rintro ⟨b, hb⟩
    obtain ⟨hm, hp⟩ := List.mem_filter.mp hb
    exact ⟨b, hm, hp⟩

theorem billingStep_count_other (i : Instant) (st : SubDb) (sub : Subscription)
    (u m y : Nat) (hne : sub.userId ≠ u) :
    subBillCountFor (billingStep i st sub) u m y = subBillCountFor st u m y := by
  simp only [billingStep]
  split
  · rfl
  · split
    · rfl
    · unfold subBillCountFor
      simp only [List.filter_append, List.length_append]
      have hpred : (sub.userId == u && decide (prevMonth i = m) && decide (prevYear i = y))
          = false := by
        rw [beq_false_of_ne hne]
        rfl
      simp only [List.filter]
      rw [show (sub.userId == u &&
          (prevMonth i == m) && (prevYear i == y)) = false from by
        rw [beq_false_of_ne hne]; rfl]
      simp

theorem billingStep_count_pos (i : Instant) (st : SubDb) (sub : Subscription) (u : Nat)
    (hpos : 0 < subBillCountFor st u (prevMonth i) (prevYear i)) :
    subBillCountFor (billingStep i st sub) u (prevMonth i) (prevYear i) =
      subBillCountFor st u (prevMonth i) (prevYear i) := by
  by_cases hne : sub.userId = u
  · subst hne
    simp only [billingStep]
    split
    · rfl
    · split
      · rfl
      · rename_i h0 hex
        exact absurd ((subBillExists_iff st sub.userId (prevMonth i) (prevYear i)).mpr hpos) hex
  · exact billingStep_count_other i st sub u _ _ hne

theorem billingStep_count_creates (i : Instant) (st : SubDb) (sub : Subscription) (u : Nat)
    (hzero : subBillCountFor st u (prevMonth i) (prevYear i) = 0)
    (hu : sub.userId = u)
    (husage : 0 < usageCount st u (prevMonth i) (prevYear i)) :
    subBillCountFor (billingStep i st sub) u (prevMonth i) (prevYear i) = 1 := by
  subst hu
  have hune : ¬ usageCount st sub.userId (prevMonth i) (prevYear i) = 0 := by omega
  have hnex : ¬ subBillExists st sub.userId (prevMonth i) (prevYear i) = true := by
    intro hc
    have := (subBillExists_iff st sub.userId (prevMonth i) (prevYear i)).mp hc
    omega
  simp only [billingStep, if_neg hune, if_neg hnex]
  unfold subBillCountFor at hzero ⊢
  simp only [List.filter_append, List.length_append]
  rw [hzero]
  simp [List.filter]

theorem foldl_billing_count_pos (i : Instant) :
    ∀ (l : List Subscription) (st : SubDb) (u : Nat),
      0 < subBillCountFor st u (prevMonth i) (prevYear i) →
      subBillCountFor (l.foldl (billingStep i) st) u (prevMonth i) (prevYear i) =
        subBillCountFor st u (prevMonth i) (prevYear i) := by
  intro l
  induction l with
  | nil => intro st u _; rfl
  | cons sub rest ih =>
    intro st u hpos
    rw [List.foldl_cons]
    have h1 := billingStep_count_pos i st sub u hpos
    rw [ih (billingStep i st sub) u (by omega), h1]

theorem foldl_billing_count_one (i : Instant) :
    ∀ (l : List Subscription) (st : SubDb) (u : Nat),
      subBillCountFor st u (prevMonth i) (prevYear i) = 0 →
      0 < usageCount st u (prevMonth i) (prevYear i) →
      (∃ sub ∈ l, sub.userId = u) →
      subBillCountFor (l.foldl (billingStep i) st) u (prevMonth i) (prevYear i) = 1 := by
  intro l
  induction l with
  | nil =>
    intro st u _ _ hex
    obtain ⟨sub, hm, -⟩ := hex
    cases hm
  | cons sub rest ih =>
    intro st u hzero husage hex
    rw [List.foldl_cons]
    by_cases hu : sub.userId = u
    · have h1 := billingStep_count_creates i st sub u hzero hu husage
      rw [foldl_billing_count_pos i rest (billingStep i st sub) u (by omega), h1]
    · have h1 := billingStep_count_other i st sub u (prevMonth i) (prevYear i) hu
      have husage1 : 0 < usageCount (billingStep i st sub) u (prevMonth i) (prevYear i) := by
        unfold usageCount
        rw [billingStep_usage]
        exact husage
      have hex1 : ∃ w ∈ rest, w.userId = u := by
        obtain ⟨w, hm, hw⟩ := hex
        rcases List.mem_cons.mp hm with rfl | hmr
        · exact absurd hw hu
        · exact ⟨w, hmr, hw⟩
      exact ih (billingStep i st sub) u (by omega) husage1 hex1

theorem foldl_billing_count_ge1 (i : Instant) (l : List Subscription) (st : SubDb) (u : Nat)
    (husage : 0 < usageCount st u (prevMonth i) (prevYear i))
    (hex : ∃ sub ∈ l, sub.userId = u) :
    0 < subBillCountFor (l.foldl (billingStep i) st) u (prevMonth i) (prevYear i) := by
  by_cases hzero : subBillCountFor st u (prevMonth i) (prevYear i) = 0
  · rw [foldl_billing_count_one i l st u hzero husage hex]
    omega
  · rw [foldl_billing_count_pos i l st u (by omega)]
    omega

theorem foldl_billing_id (i : Instant) :
    ∀ (l : List Subscription) (st : SubDb),
      (∀ sub ∈ l, billingStep i st sub = st) →
      l.foldl (billingStep i) st = st := by
  intro l
  induction l with
  | nil => intro st _; rfl
  | cons sub rest ih =>
    intro st h
    rw [List.foldl_cons, h sub (List.mem_cons_self sub rest)]
    exact ih st (fun w hw => h w (List.mem_cons_of_mem sub hw))

/-- Re-running the monthly invoice generation in the same billing period
changes nothing at all: every subscription it would look at either has no
prior-month usage or already has its period bill from the first run. -/
theorem processCustomPlanBilling_idem (i : Instant) (st : SubDb) :
    processCustomPlanBilling i (processCustomPlanBilling i st) =
      processCustomPlanBilling i st := by
  unfold processCustomPlanBilling
  set st1 := (st.subscriptions.filter isActiveCustom).foldl (billingStep i) st with hst1
  apply foldl_billing_id
  intro sub hmem
  obtain ⟨hmem1, hactive⟩ := List.mem_filter.mp hmem
  by_cases h0 : usageCount st1 sub.userId (prevMonth i) (prevYear i) = 0
  · simp only [billingStep, if_pos h0]
  · have hview : subView sub ∈ st.subscriptions.map subView := by
      rw [← foldl_billing_subsView i (st.subscriptions.filter isActiveCustom) st, ← hst1]
      exact List.mem_map_of_mem subView hmem1
    obtain ⟨sub0, hm0, hv0⟩ := List.mem_map.mp hview
    have hu0 : sub0.userId = sub.userId := congrArg Prod.fst hv0
    have hview0 : isActiveCustom sub0 = true := by
      unfold isActiveCustom at hactive ⊢
      have hp : sub0.planType = sub.planType := congrArg (Prod.fst ∘ Prod.snd) hv0
      have hs : sub0.status = sub.status := congrArg (Prod.snd ∘ Prod.snd) hv0
      rw [hp, hs]
      exact hactive
    have husage : 0 < usageCount st sub.userId (prevMonth i) (prevYear i) := by
      have := foldl_billing_usageCount i (st.subscriptions.filter isActiveCustom) st
        sub.userId (prevMonth i) (prevYear i)
      rw [← hst1] at this
      omega
    have hex : 0 < subBillCountFor st1 sub.userId (prevMonth i) (prevYear i) := by
      rw [hst1]
      exact foldl_billing_count_ge1 i _ st sub.userId husage
        ⟨sub0, List.mem_filter.mpr ⟨hm0, hview0⟩, hu0⟩
    have hexb : subBillExists st1 sub.userId (prevMonth i) (prevYear i) = true :=
      (subBillExists_iff st1 sub.userId (prevMonth i) (prevYear i)).mpr hex
    simp only [billingStep, if_neg h0, if_pos hexb]

/-- Claim C4: with no pre-existing SubscriptionBill for (user, previous
month, previous year), one run of the monthly invoice generation creates
exactly one such bill for a user owning an ACTIVE usage-based
subscription with nonzero prior-month usage, and a second run in the same
billing period is a no-op (so still exactly one bill per (user, month,
year)). -/
theorem C4_monthly_billing_idempotent (i : Instant) (st : SubDb) (u : Nat)
    (hzero : subBillCountFor st u (prevMonth i) (prevYear i) = 0)
    (hsub : ∃ s ∈ st.subscriptions, s.userId = u ∧ s.planType = PlanType.CUSTOM ∧
      s.status = SubStatus.ACTIVE)
    (husage : 0 < usageCount st u (prevMonth i) (prevYear i)) :
    subBillCountFor (processCustomPlanBilling i st) u (prevMonth i) (prevYear i) = 1 ∧
    processCustomPlanBilling i (processCustomPlanBilling i st) =
      processCustomPlanBilling i st := by
  refine ⟨?_, processCustomPlanBilling_idem i st⟩
  obtain ⟨s, hm, hu, hp, hs⟩ := hsub
  have hmem : s ∈ st.subscriptions.filter isActiveCustom := by
    refine List.mem_filter.mpr ⟨hm, ?_⟩
    unfold isActiveCustom
    rw [hp, hs]
    rfl
  exact foldl_billing_count_one i _ st u hzero husage ⟨s, hmem, hu⟩

/-! ### C9: at most one ACTIVE subscription per user -/

/-- How many of the user's subscriptions are ACTIVE (the query the
creation route's duplicate check and the invariant read). -/
def countActive (l : List Subscription) (u : Nat) : Nat :=
  (l.filter (fun s => s.userId == u && s.status == SubStatus.ACTIVE)).length

/-- The invariant: every user has at most one ACTIVE subscription. -/
def AtMostOneActive (st : SubDb) : Prop := ∀ u, countActive st.subscriptions u ≤ 1

/-- The operations of the subscription layer, as one step relation. -/
inductive SubOp
  | createSub (now : Int) (uid : Nat) (plan : PlanType)
  | cancelSub (now : Int) (uid : Nat)
  | overdueSweep (now : Int)
  | expirySweep (now : Int)
  | guard (now : Int) (auth : AuthInput)
  | monthlyBilling (i : Instant)
  | track (i : Instant) (code : Nat) (b : Option Bill) (u : Option Nat)
      (s : Option Subscription)

def applySubOp : SubOp → SubDb → SubDb
  | SubOp.createSub now uid plan, st => (createSubscription now uid plan st).1
  | SubOp.cancelSub now uid, st => (cancelSubscription now uid st).1
  | SubOp.overdueSweep now, st => checkOverdueBills now st
  | SubOp.expirySweep now, st => checkExpiredSubscriptions now st
  | SubOp.guard now auth, st => (checkSubscription now auth st).1
  | SubOp.monthlyBilling i, st => processCustomPlanBilling i st
  | SubOp.track i code b u s, st => trackBillUsageHook i code b u s st

theorem countActive_map_le (f : Subscription → Subscription)
    (hid : ∀ s, (f s).userId = s.userId)
    (hact : ∀ s, (f s).status = SubStatus.ACTIVE → s.status = SubStatus.ACTIVE) :
    ∀ (l : List Subscription) (u : Nat), countActive (l.map f) u ≤ countActive l u := by
  intro l u
  induction l with
  | nil => exact Nat.le.refl
  | cons s rest ih =>
    unfold countActive at ih ⊢
    rw [List.map_cons, List.filter_cons, List.filter_cons]
    by_cases hfs : ((f s).userId == u && (f s).status == SubStatus.ACTIVE) = true
    · have hs : (s.userId == u && s.status == SubStatus.ACTIVE) = true := by
        rw [Bool.and_eq_true] at hfs
        obtain ⟨h1, h2⟩ := hfs
        have e1 : s.userId = u := by
          rw [← hid s]
          exact eq_of_beq h1
        have e2 : s.status = SubStatus.ACTIVE := hact s (eq_of_beq h2)
        simp [e1, e2]
      rw [if_pos hfs, if_pos hs]
      simp only [List.length_cons]
      omega
    · rw [if_neg hfs]
      by_cases hs : (s.userId == u && s.status == SubStatus.ACTIVE) = true
      · rw [if_pos hs]
        simp only [List.length_cons]
        omega
      · rw [if_neg hs]
        exact ih

/-- `countActive` is a function of the rows' user/plan/status view. -/
theorem countActive_subsView (l1 l2 : List Subscription) (u : Nat)
    (h : l1.map subView = l2.map subView) : countActive l1 u = countActive l2 u := by
  have key : ∀ l : List Subscription, countActive l u =
      ((l.map subView).filter
        (fun v => v.1 == u && v.2.2 == SubStatus.ACTIVE)).length := by
    intro l
    unfold countActive
    rw [List.filter_map, List.length_map]
    rfl
  rw [key l1, key l2, h]

theorem fold_suspend_countActive_le :
    ∀ (users : List Nat) (st : SubDb) (u : Nat),
      countActive ((users.foldl suspendUser st).subscriptions) u ≤
        countActive st.subscriptions u := by
  intro users
  induction users with
  | nil => intro st u; exact Nat.le.refl
  | cons v rest ih =>
    intro st u
    rw [List.foldl_cons]
    refine le_trans (ih (suspendUser st v) u) ?_
    show countActive (st.subscriptions.map _) u ≤ _
    refine countActive_map_le _ ?_ ?_ st.subscriptions u
    · intro s
      by_cases hc : (s.userId == v && s.status == SubStatus.ACTIVE) = true
      · rw [if_pos hc]
      · rw [if_neg hc]
    · intro s hs
      by_cases hc : (s.userId == v && s.status == SubStatus.ACTIVE) = true
      · rw [if_pos hc] at hs
        exact absurd hs (by intro hcc; exact SubStatus.noConfusion hcc)
      · rw [if_neg hc] at hs
        exact hs

theorem guard_subs (now : Int) (auth : AuthInput) (st : SubDb) :
    (checkSubscription now auth st).1.subscriptions = st.subscriptions ∨
    ∃ sid : Nat, (checkSubscription now auth st).1.subscriptions =
      st.subscriptions.map (fun t =>
        if t.id == sid then { t with status := SubStatus.EXPIRED } else t) := by
  cases auth with
  | noToken => exact Or.inl rfl
  | badToken => exact Or.inl rfl
  | valid cu =>
    simp only [checkSubscription]
    split
    · exact Or.inl rfl
    · split
      · exact Or.inl rfl
      · split
        · exact Or.inr ⟨_, rfl⟩
        · split
          · exact Or.inl rfl
          · exact Or.inl rfl

theorem trackUsage_subs_le (i : Instant) (uid : Nat) (billId : String)
    (s0 : Subscription) (st : SubDb) (u : Nat) :
    countActive (trackUsage i uid billId s0 st).subscriptions u ≤
      countActive st.subscriptions u := by
  simp only [trackUsage]
  by_cases hp : (s0.planType == PlanType.CUSTOM) = true
  · rw [if_pos hp]
    refine countActive_map_le _ ?_ ?_ st.subscriptions u
    · intro s
      by_cases hc : (s.id == s0.id) = true
      · rw [if_pos hc]
      · rw [if_neg hc]
    · intro s hs
      by_cases hc : (s.id == s0.id) = true
      · rw [if_pos hc] at hs
        exact hs
      · rw [if_neg hc] at hs
        exact hs
  · rw [if_neg hp]

/-- Claim C9: every operation of the subscription layer preserves the
invariant that each user has at most one ACTIVE subscription: creation is
rejected with HTTP 400 when the caller already has an ACTIVE subscription
(second conjunct), and every other transition (cancel, expiry — by sweep
or guard —, suspension, billing bookkeeping, usage tracking) only moves
subscriptions out of ACTIVE or leaves the status alone. -/
theorem C9_at_most_one_active (op : SubOp) (st : SubDb) (h : AtMostOneActive st) :
    AtMostOneActive (applySubOp op st) ∧
    (∀ (now : Int) (uid : Nat) (plan : PlanType),
      0 < countActive st.subscriptions uid →
      createSubscription now uid plan st = (st, 400)) := by
  constructor
  case right =>
    intro now uid plan hpos
    unfold countActive at hpos
    have hany : (st.subscriptions.any
        (fun s => s.userId == uid && s.status == SubStatus.ACTIVE)) = true := by
      rw [List.any_eq_true]
      have hne : st.subscriptions.filter
          (fun s => s.userId == uid && s.status == SubStatus.ACTIVE) ≠ [] := by
        intro hc
        rw [hc] at hpos
        cases hpos
      obtain ⟨b, hb⟩ := List.exists_mem_of_ne_nil _ hne
      obtain ⟨hm, hp⟩ := List.mem_filter.mp hb
      exact ⟨b, hm, hp⟩
    unfold createSubscription
    rw [if_pos hany]
  intro u
  cases op with
  | createSub now uid plan =>
    show countActive (createSubscription now uid plan st).1.subscriptions u ≤ 1
    unfold createSubscription
    by_cases hex : (st.subscriptions.any
        (fun s => s.userId == uid && s.status == SubStatus.ACTIVE)) = true
    · rw [if_pos hex]
      exact h u
    · rw [if_neg hex]
      have hzero : countActive st.subscriptions uid = 0 := by
        unfold countActive
        rw [List.length_eq_zero]
        refine List.filter_eq_nil.mpr ?_
        intro s hs hp
        rw [Bool.not_eq_true] at hex
        have := List.any_eq_false.mp hex s hs
        exact this hp
      have hcu := h u
      unfold countActive at hcu hzero ⊢
      rw [List.filter_append, List.length_append]
      by_cases huid : uid = u
      · subst huid
        rw [hzero]
        simp [List.filter]
      · have hone : ∀ x : Subscription, x.userId = uid →
            (List.filter (fun s => s.userId == u && s.status == SubStatus.ACTIVE)
              [x]).length = 0 := by
          intro x hx
          simp [List.filter, hx, beq_false_of_ne huid]
        rw [hone _ rfl]
        omega
  | cancelSub now uid =>
    show countActive (cancelSubscription now uid st).1.subscriptions u ≤ 1
    unfold cancelSubscription
    cases st.subscriptions.find?
        (fun s => s.userId == uid && s.status == SubStatus.ACTIVE) with
    | none => exact h u
    | some s0 =>
      refine le_trans (countActive_map_le _ ?_ ?_ st.subscriptions u) (h u)
      · intro s
        by_cases hc : (s.id == s0.id) = true
        · rw [if_pos hc]
        · rw [if_neg hc]
      · intro s hs
        by_cases hc : (s.id == s0.id) = true
        · rw [if_pos hc] at hs
          exact absurd hs (by intro hcc; exact SubStatus.noConfusion hcc)
        · rw [if_neg hc] at hs
          exact hs
  | overdueSweep now =>
    show countActive (checkOverdueBills now st).subscriptions u ≤ 1
    rw [checkOverdueBills_unfold]
    refine le_trans (fold_suspend_countActive_le _ (markOverdue now st) u) ?_
    exact h u
  | expirySweep now =>
    show countActive (checkExpiredSubscriptions now st).subscriptions u ≤ 1
    refine le_trans (countActive_map_le _ ?_ ?_ st.subscriptions u) (h u)
    · intro s
      by_cases hc : (s.status == SubStatus.ACTIVE &&
          (match s.endDate with
           | some e => decide (e < now)
           | none => false)) = true
      · rw [if_pos hc]
      · rw [if_neg hc]
    · intro s hs
      by_cases hc : (s.status == SubStatus.ACTIVE &&
          (match s.endDate with
           | some e => decide (e < now)
           | none => false)) = true
      · rw [if_pos hc] at hs
        exact absurd hs (by intro hcc; exact SubStatus.noConfusion hcc)
      · rw [if_neg hc] at hs
        exact hs
  | guard now auth =>
    show countActive (checkSubscription now auth st).1.subscriptions u ≤ 1
    rcases guard_subs now auth st with heq | ⟨sid, heq⟩
    · rw [heq]
      exact h u
    · rw [heq]
      refine le_trans (countActive_map_le _ ?_ ?_ st.subscriptions u) (h u)
      · intro s
        by_cases hc : (s.id == sid) = true
        · rw [if_pos hc]
        · rw [if_neg hc]
      · intro s hs
        by_cases hc : (s.id == sid) = true
        · rw [if_pos hc] at hs
          exact absurd hs (by intro hcc; exact SubStatus.noConfusion hcc)
        · rw [if_neg hc] at hs
          exact hs
  | monthlyBilling i =>
    have hv := foldl_billing_subsView i (st.subscriptions.filter isActiveCustom) st
    show countActive
      ((st.subscriptions.filter isActiveCustom).foldl (billingStep i) st).subscriptions u ≤ 1
    rw [countActive_subsView _ st.subscriptions u hv]
    exact h u
  | track i code b uo so =>
    show countActive (trackBillUsageHook i code b uo so st).subscriptions u ≤ 1
    unfold trackBillUsageHook
    by_cases hcode : (code == 201) = true
    · rw [if_pos hcode]
      cases b with
      | none => exact h u
      | some bb =>
        cases uo with
        | none => exact h u
        | some uid =>
          cases so with
          | none => exact h u
          | some s0 => exact le_trans (trackUsage_subs_le i uid bb.id s0 st u) (h u)
    · rw [if_neg hcode]
      exact h u

def subDbC9 : SubDb :=
  { users := [], subscriptions := [subActiveC5], usageRecords := [],
    subscriptionBills := [], nextId := 2 }

theorem C9_at_most_one_active_witness :
    countActive (applySubOp (SubOp.cancelSub 0 5) subDbC9).subscriptions 5 ≤ 1 ∧
    createSubscription 0 5 PlanType.MONTHLY subDbC9 = (subDbC9, 400) := by
  have hinv : AtMostOneActive subDbC9 := by
    intro u
    show (List.filter _ [subActiveC5]).length ≤ 1
    cases hc : (subActiveC5.userId == u && subActiveC5.status == SubStatus.ACTIVE) with
    | false =>
      rw [List.filter_cons, if_neg (by rw [hc]; exact Bool.noConfusion)]
      exact Nat.zero_le 1
    | true =>
      rw [List.filter_cons, if_pos hc]
      exact Nat.le.refl
  have h9 := C9_at_most_one_active (SubOp.cancelSub 0 5) subDbC9 hinv
  exact ⟨h9.1 5, h9.2 0 5 PlanType.MONTHLY (by with_unfolding_all decide)⟩

def instC4 : Instant := { time := 2000, month := 1, year := 2026 }

def usageC4 : UsageRecord := { userId := 5, billId := "b9", month := 12, year := 2025 }

def subDbC4 : SubDb :=
  { users := [], subscriptions := [subActiveC5], usageRecords := [usageC4],
    subscriptionBills := [], nextId := 2 }

theorem C4_monthly_billing_idempotent_witness :
    subBillCountFor (processCustomPlanBilling instC4 subDbC4) 5
      (prevMonth instC4) (prevYear instC4) = 1 ∧
    processCustomPlanBilling instC4 (processCustomPlanBilling instC4 subDbC4) =
      processCustomPlanBilling instC4 subDbC4 :=
  C4_monthly_billing_idempotent instC4 subDbC4 5 (by decide)
    ⟨subActiveC5, by with_unfolding_all decide, by with_unfolding_all rfl,
      by with_unfolding_all rfl, by with_unfolding_all rfl⟩
    (by decide)

def clerkUserC6 : ClerkUser :=
  { id := "clerk-1", email := "a@b.c", firstName := "A", lastName := "B" }

def userC6 : User :=
  { id := 4, clerkId := "clerk-1", email := "a@b.c", firstName := "A", lastName := "B" }

def subExpiredC6 : Subscription :=
  { id := 9, userId := 4, planType := PlanType.MONTHLY, status := SubStatus.ACTIVE,
    amount := 100, startDate := 0, endDate := some 30, nextBillingDate := 30,
    billsGenerated := 0, createdAt := 0 }

def subDbC6 : SubDb :=
  { users := [userC6], subscriptions := [subExpiredC6], usageRecords := [],
    subscriptionBills := [], nextId := 10 }

theorem C6_guard_expiry_witness :
    (checkSubscription 100 (AuthInput.valid clerkUserC6) subDbC6).2 =
      GuardOutcome.fail 403 "SUBSCRIPTION_EXPIRED" ∧
    ∀ t ∈ (checkSubscription 100 (AuthInput.valid clerkUserC6) subDbC6).1.subscriptions,
      t.id = subExpiredC6.id → t.status = SubStatus.EXPIRED :=
  C6_guard_expiry 100 subDbC6 clerkUserC6 userC6 subExpiredC6 30
    (by with_unfolding_all rfl) (by with_unfolding_all rfl) rfl (by decide)

end BillG
